import Mathlib

/-!
Shallow embedding of the AVBD 2D physics engine (web-avbd2d).

Numbers are modelled as exact rationals (ℚ): the source runs on IEEE
doubles, and every claim settled here is about control flow, exact
algebraic structure or order relations that are preserved by the exact
idealization.  JavaScript `Infinity` values, which the source stores in
the `stiffness`, `fmin`, `fmax` and `fracture` row arrays and uses only
in comparisons and `Math.min`, are modelled by the `Ext` type below.
`Math.cos`, `Math.sin` and `Math.sqrt` are modelled by an explicit
record of real-function stand-ins (`RealFuns`); universal theorems
quantify over it, and concrete executions instantiate it with functions
that agree with the exact real cosine, sine and square root at every
point where the execution evaluates them (all angles in the concrete
scenes are 0, and all square-root arguments are perfect squares of
rationals).
-/

set_option maxRecDepth 100000

attribute [local semireducible] Rat.add Rat.mul Rat.sub Rat.inv

namespace AVBD

/-- 2-vector of rationals (glm.vec2). -/
structure Vec2 where
  x : ℚ
  y : ℚ
deriving DecidableEq, Repr

/-- 3-vector of rationals (glm.vec3).  `glm.vec3.create()` is the zero vector. -/
structure Vec3 where
  x : ℚ
  y : ℚ
  z : ℚ
deriving DecidableEq, Repr

/-- Column-major 2x2 matrix (glm.mat2): entries m0 m1 are column 0. -/
structure Mat2 where
  m0 : ℚ
  m1 : ℚ
  m2 : ℚ
  m3 : ℚ
deriving DecidableEq, Repr

/-- Column-major 3x3 matrix (glm.mat3): entries e0 e1 e2 are column 0. -/
structure Mat3 where
  e0 : ℚ
  e1 : ℚ
  e2 : ℚ
  e3 : ℚ
  e4 : ℚ
  e5 : ℚ
  e6 : ℚ
  e7 : ℚ
  e8 : ℚ
deriving DecidableEq, Repr

def Vec2.add (a b : Vec2) : Vec2 := ⟨a.x + b.x, a.y + b.y⟩

def Vec2.sub (a b : Vec2) : Vec2 := ⟨a.x - b.x, a.y - b.y⟩

def Vec2.scale (a : Vec2) (s : ℚ) : Vec2 := ⟨a.x * s, a.y * s⟩

def Vec2.dot (a b : Vec2) : ℚ := a.x * b.x + a.y * b.y

/-- glm.vec2.squaredLength. -/
def Vec2.sqrLen (a : Vec2) : ℚ := a.x * a.x + a.y * a.y

/-- MathUtils.cross2: a.x*b.y - a.y*b.x. -/
def cross2 (a b : Vec2) : ℚ := a.x * b.y - a.y * b.x

def Vec3.add (a b : Vec3) : Vec3 := ⟨a.x + b.x, a.y + b.y, a.z + b.z⟩

def Vec3.sub (a b : Vec3) : Vec3 := ⟨a.x - b.x, a.y - b.y, a.z - b.z⟩

def Vec3.scale (a : Vec3) (s : ℚ) : Vec3 := ⟨a.x * s, a.y * s, a.z * s⟩

def Vec3.dot (a b : Vec3) : ℚ := a.x * b.x + a.y * b.y + a.z * b.z

def Vec3.zero : Vec3 := ⟨0, 0, 0⟩

/-- glm.vec2.transformMat2: out = m * v (column-major). -/
def Mat2.apply (m : Mat2) (v : Vec2) : Vec2 :=
  ⟨m.m0 * v.x + m.m2 * v.y, m.m1 * v.x + m.m3 * v.y⟩

def Mat2.transpose (m : Mat2) : Mat2 := ⟨m.m0, m.m2, m.m1, m.m3⟩

/-- glm.mat2.multiply(out, a, b) = a * b in column-major storage. -/
def Mat2.mul (a b : Mat2) : Mat2 :=
  ⟨a.m0 * b.m0 + a.m2 * b.m1,
   a.m1 * b.m0 + a.m3 * b.m1,
   a.m0 * b.m2 + a.m2 * b.m3,
   a.m1 * b.m2 + a.m3 * b.m3⟩

/-- glm.vec3.transformMat3: out = m * v (column-major). -/
def Mat3.apply (m : Mat3) (v : Vec3) : Vec3 :=
  ⟨m.e0 * v.x + m.e3 * v.y + m.e6 * v.z,
   m.e1 * v.x + m.e4 * v.y + m.e7 * v.z,
   m.e2 * v.x + m.e5 * v.y + m.e8 * v.z⟩

def Mat3.add (a b : Mat3) : Mat3 :=
  ⟨a.e0 + b.e0, a.e1 + b.e1, a.e2 + b.e2, a.e3 + b.e3, a.e4 + b.e4,
   a.e5 + b.e5, a.e6 + b.e6, a.e7 + b.e7, a.e8 + b.e8⟩

def Mat3.smul (m : Mat3) (s : ℚ) : Mat3 :=
  ⟨m.e0 * s, m.e1 * s, m.e2 * s, m.e3 * s, m.e4 * s,
   m.e5 * s, m.e6 * s, m.e7 * s, m.e8 * s⟩

/-- glm.mat3.create() is the IDENTITY matrix (this is what `Force`
initializes every Hessian slot to, and `Manifold` never overwrites it). -/
def Mat3.ident : Mat3 := ⟨1, 0, 0, 0, 1, 0, 0, 0, 1⟩

def Mat3.zero : Mat3 := ⟨0, 0, 0, 0, 0, 0, 0, 0, 0⟩

/-- MathUtils.outerMat3D: out[0]=a0*b0, out[3]=a0*b1, out[6]=a0*b2, etc. -/
def outerMat3D (a b : Vec3) : Mat3 :=
  ⟨a.x * b.x, a.y * b.x, a.z * b.x,
   a.x * b.y, a.y * b.y, a.z * b.y,
   a.x * b.z, a.y * b.z, a.z * b.z⟩

/-- MathUtils.solveLDLT.  The source performs the decomposition and the
three triangular solves with NO check on the pivots D1, D2, D3: there is
no branch, no diagnostic and no failure value in the function. -/
def solveLDLT (A : Mat3) (b : Vec3) : Vec3 :=
  let D1 := A.e0
  let L21 := A.e3 / A.e0
  let L31 := A.e6 / A.e0
  let D2 := A.e4 - L21 * L21 * D1
  let L32 := (A.e7 - L31 * L21 * D1) / D2
  let D3 := A.e8 - (L31 * L31 * D1 + L32 * L32 * D2)
  let y1 := b.x
  let y2 := b.y - L21 * y1
  let y3 := b.z - L31 * y1 - L32 * y2
  let z1 := y1 / D1
  let z2 := y2 / D2
  let z3 := y3 / D3
  let x2 := z3
  let x1 := z2 - L32 * x2
  let x0 := z1 - L21 * x1 - L31 * x2
  ⟨x0, x1, x2⟩

/-- Extended rationals: the JavaScript number values that the row arrays
`stiffness`, `fmin`, `fmax`, `fracture` can hold.  The source only ever
compares them and takes `Math.min` against finite values; it never does
arithmetic on an infinite entry. -/
inductive Ext where
  | fin : ℚ → Ext
  | pinf : Ext
  | ninf : Ext
deriving DecidableEq, Repr

/-- `value === Infinity` test (Solver lines 318, 423). -/
def Ext.isPInf : Ext → Bool
  | .pinf => true
  | _ => false

/-- `value != 0` test (Joint.initialize line 873). -/
def Ext.neZero : Ext → Bool
  | .fin q => decide (q ≠ 0)
  | _ => true

/-- `if (f < fmin) f = fmin` with a possibly infinite lower bound.  In the
source `fmin` is always either finite or -Infinity, so the pinf branch is
unreachable; it is totalized as the identity. -/
def Ext.clampBelow (lo : Ext) (f : ℚ) : ℚ :=
  match lo with
  | .fin q => if f < q then q else f
  | .ninf => f
  | .pinf => f

/-- `if (f > fmax) f = fmax` with a possibly infinite upper bound.  In the
source `fmax` is always either finite or +Infinity, so the ninf branch is
unreachable; it is totalized as the identity. -/
def Ext.clampAbove (hi : Ext) (f : ℚ) : ℚ :=
  match hi with
  | .fin q => if f > q then q else f
  | .pinf => f
  | .ninf => f

/-- `Math.min(q, e)` for finite q against a row entry.  In the source the
entry is a stiffness, never -Infinity; the ninf branch is totalized as q. -/
def Ext.minQ (e : Ext) (q : ℚ) : ℚ :=
  match e with
  | .fin s => min q s
  | .pinf => q
  | .ninf => q

/-- strict `lambda > fmin` (Solver line 434). -/
def Ext.ltQ (lo : Ext) (f : ℚ) : Bool :=
  match lo with
  | .fin q => decide (q < f)
  | .ninf => true
  | .pinf => false

/-- strict `lambda < fmax` (Solver line 434). -/
def Ext.gtQ (hi : Ext) (f : ℚ) : Bool :=
  match hi with
  | .fin q => decide (f < q)
  | .pinf => true
  | .ninf => false

/-- `|lambda| >= fracture` (Solver line 431); fracture is finite or +Infinity. -/
def Ext.leAbs (e : Ext) (f : ℚ) : Bool :=
  match e with
  | .fin q => decide (q ≤ |f|)
  | .pinf => false
  | .ninf => true

/-- membership of a rational in the closed interval [lo, hi] of extended bounds. -/
def Ext.memClosed (lo hi : Ext) (f : ℚ) : Prop :=
  (match lo with | .fin q => q ≤ f | .ninf => True | .pinf => False) ∧
  (match hi with | .fin q => f ≤ q | .pinf => True | .ninf => False)

instance (lo hi : Ext) (f : ℚ) : Decidable (Ext.memClosed lo hi f) := by
  unfold Ext.memClosed
  cases lo <;> cases hi <;> simp <;> infer_instance

/-- The bounds pair straddles zero: fmin ≤ 0 ≤ fmax.  Every force the
source constructs satisfies this on every row. -/
def Ext.straddle (lo hi : Ext) : Prop := Ext.memClosed lo hi 0

/-- Math.sign. -/
def qsign (q : ℚ) : ℚ := if 0 < q then 1 else if q < 0 then -1 else 0

/-- Stand-ins for the real-valued library functions Math.cos, Math.sin,
Math.sqrt consumed by the engine.  Universal theorems quantify over this
record; concrete executions use `rfZero` below, which agrees with the
exact real functions at every point those executions evaluate them. -/
structure RealFuns where
  cos : ℚ → ℚ
  sin : ℚ → ℚ
  sqrt : ℚ → ℚ

/-- Integer square root by bounded search (structural recursion, so that
concrete executions reduce inside the kernel). -/
def natSqrtLin (n : ℕ) : ℕ :=
  (List.range (n + 1)).foldl (fun acc k => if k * k ≤ n then k else acc) 0

/-- Exact square root on the rationals whose numerator and denominator are
perfect squares (and 0 on nonpositive input); agrees with the real square
root there.  All concrete executions in this file only take square roots
of such rationals. -/
def ratSqrt (q : ℚ) : ℚ :=
  if q ≤ 0 then 0 else (natSqrtLin q.num.toNat : ℚ) / (natSqrtLin q.den : ℚ)

/-- The concrete real-function record used by the concrete scenes: every
angle in those scenes is 0 (cos 0 = 1, sin 0 = 0) and every square-root
argument is a perfect square of a rational. -/
def rfZero : RealFuns := { cos := fun _ => 1, sin := fun _ => 0, sqrt := ratSqrt }

/-- MathUtils.rotationMatrix: column-major (c, s, -s, c). -/
def rotationMatrix (rf : RealFuns) (angle : ℚ) : Mat2 :=
  ⟨rf.cos angle, rf.sin angle, -(rf.sin angle), rf.cos angle⟩

/-- MathUtils.rotate2D. -/
def rotate2D (rf : RealFuns) (v : Vec2) (angle : ℚ) : Vec2 :=
  (rotationMatrix rf angle).apply v

/-- MathUtils.transform2D: rotate r by v.z and translate by (v.x, v.y). -/
def transform2D (rf : RealFuns) (v : Vec3) (r : Vec2) : Vec2 :=
  Vec2.add ((rotationMatrix rf v.z).apply r) ⟨v.x, v.y⟩

/-- glm.vec3.length via the square-root stand-in. -/
def vec3Len (rf : RealFuns) (v : Vec3) : ℚ :=
  rf.sqrt (v.x * v.x + v.y * v.y + v.z * v.z)

/-! ## Body (RigidBox.ts) -/

/-- RigidBox state.  `staticBody` is fixed at construction as `mass === 0`.
Bodies are referenced by their index in the solver's `bodies` list; the
source's `body.forces` back-reference array is modelled as the subsequence
of the solver's force list touching the body (the source fills both in
registration order, so the orders agree). -/
structure Body where
  scaleW : ℚ
  scaleH : ℚ
  mass : ℚ
  moment : ℚ
  radius : ℚ
  friction : ℚ
  staticBody : Bool
  pos : Vec3
  vel : Vec3
  prevVel : Vec3
  lastPos : Vec3
  inertial : Vec3
  isDragged : Bool
  addedDragVel : Vec3
deriving DecidableEq, Repr

/-- The RigidBox constructor: mass = w*h*density, static iff mass = 0,
moment = mass*(w^2+h^2)/12, radius = sqrt(w^2+h^2)*0.5. -/
def mkRigidBox (rf : RealFuns) (scale : Vec2) (density friction : ℚ)
    (pos vel : Vec3) : Body :=
  let mass := scale.x * scale.y * density
  { scaleW := scale.x
    scaleH := scale.y
    mass := mass
    moment := mass * (Vec2.dot scale scale) / 12
    radius := rf.sqrt (Vec2.dot scale scale) * (1 / 2)
    friction := friction
    staticBody := decide (mass = 0)
    pos := pos
    vel := vel
    prevVel := vel
    lastPos := Vec3.zero
    inertial := Vec3.zero
    isDragged := false
    addedDragVel := Vec3.zero }

/-- RigidBox.setVelocity: a no-op on static bodies. -/
def Body.setVelocity (b : Body) (v : Vec3) : Body :=
  if b.staticBody then b else { b with vel := v }

def Body.pos2 (b : Body) : Vec2 := ⟨b.pos.x, b.pos.y⟩

/-! ## Force (Force.ts, Joint in GameRenderer.ts, Manifold.ts) -/

/-- Contact-detail edge tags; `Edges` enum values are 0..4, packed as four
8-bit fields into a 32-bit feature ID. -/
structure Details where
  in1 : ℕ
  out1 : ℕ
  in2 : ℕ
  out2 : ℕ
  id : ℕ
deriving DecidableEq, Repr

def Details.default : Details := ⟨0, 0, 0, 0, 0⟩

/-- Manifold.packFeatureID: pack four 8-bit edge tags into one integer.
All tags are at most 4 in the source, so the JavaScript 32-bit signed
arithmetic coincides with ℕ arithmetic here. -/
def packFeatureID (cd : Details) : ℕ :=
  (cd.in1 % 256) + (cd.out1 % 256) * 256 + (cd.in2 % 256) * 65536 +
    (cd.out2 % 256) * 16777216

/-- Manifold.Flip: swap the body-1 / body-2 edge tags. -/
def Details.flip (cd : Details) : Details :=
  { cd with in1 := cd.in2, in2 := cd.in1, out1 := cd.out2, out2 := cd.out1 }

/-- One persistent contact point inside a manifold. -/
structure Contact where
  details : Details
  pA : Vec2
  pB : Vec2
  n : Vec2
  jacNormA : Vec3
  jacNormB : Vec3
  jacTangA : Vec3
  jacTangB : Vec3
  C0 : Vec2
  stick : Bool
deriving DecidableEq, Repr

def Contact.empty : Contact :=
  ⟨Details.default, ⟨0, 0⟩, ⟨0, 0⟩, ⟨0, 0⟩,
   Vec3.zero, Vec3.zero, Vec3.zero, Vec3.zero, ⟨0, 0⟩, false⟩

/-- Joint-specific state (the Joint class in GameRenderer.ts).  `bodyA` is
optional (one-body joints pin bodyB to the world anchor rA). -/
structure JointData where
  rA : Vec2
  rB : Vec2
  C0 : Vec3
  torqueArm : ℚ
  restAngle : ℚ
  bodyA : Option ℕ
  bodyB : ℕ
deriving DecidableEq, Repr

/-- Manifold-specific state. -/
structure ManifoldData where
  bodyA : ℕ
  bodyB : ℕ
  contacts : List Contact
  friction : ℚ
deriving DecidableEq, Repr

inductive FKind where
  | joint : JointData → FKind
  | manifold : ManifoldData → FKind
deriving DecidableEq, Repr

/-- A force: the per-row arrays of the Force base class plus the concrete
subtype state.  The arrays have MAX_ROWS = 4 slots; only indices below
`rows` are consumed by the solver. -/
structure Force where
  kind : FKind
  C : ℕ → ℚ
  penalty : ℕ → ℚ
  lam : ℕ → ℚ
  fmin : ℕ → Ext
  fmax : ℕ → Ext
  stiffness : ℕ → Ext
  fracture : ℕ → Ext
  J : ℕ → Vec3
  H : ℕ → Mat3

/-- Force.getRows: 3 for a Joint, 2 * contact count for a Manifold. -/
def Force.rows (f : Force) : ℕ :=
  match f.kind with
  | .joint _ => 3
  | .manifold md => 2 * md.contacts.length

/-- Does the force reference body index i (f.bodies contains the body)? -/
def Force.touches (f : Force) (i : ℕ) : Bool :=
  match f.kind with
  | .joint jd => jd.bodyA = some i || jd.bodyB = i
  | .manifold md => md.bodyA = i || md.bodyB = i

/-- pointwise update of a row array. -/
def upd {α : Type} (f : ℕ → α) (j : ℕ) (v : α) : ℕ → α :=
  fun k => if k = j then v else f k

/-- Force.disable: zero stiffness, penalty and lambda on all MAX_ROWS rows. -/
def Force.disable (f : Force) : Force :=
  { f with
    stiffness := fun k => if k < 4 then .fin 0 else f.stiffness k
    penalty := fun k => if k < 4 then 0 else f.penalty k
    lam := fun k => if k < 4 then 0 else f.lam k }

/-- The Force base-constructor defaults for the row arrays: C = 0,
fmin = -Infinity, fmax = Infinity, stiffness = Infinity,
fracture = Infinity, penalty = 0, lambda = 0, J = 0, H = identity
(glm.mat3.create() is the identity matrix). -/
def baseRows (kind : FKind) : Force :=
  { kind := kind
    C := fun _ => 0
    penalty := fun _ => 0
    lam := fun _ => 0
    fmin := fun _ => .ninf
    fmax := fun _ => .pinf
    stiffness := fun _ => .pinf
    fracture := fun _ => .pinf
    J := fun _ => Vec3.zero
    H := fun _ => Mat3.ident }

/-- The Manifold constructor: base defaults, then rows 0 and 2 (the normal
rows) get fmax = 0 and fmin = -Infinity. -/
def newManifold (aIdx bIdx : ℕ) : Force :=
  let f := baseRows (.manifold ⟨aIdx, bIdx, [], 0⟩)
  { f with
    fmax := fun k => if k = 0 ∨ k = 2 then .fin 0 else f.fmax k
    fmin := fun k => if k = 0 ∨ k = 2 then .ninf else f.fmin k }

/-- The Joint constructor (two-body form, bodies at indices aIdx, bIdx with
current states bA, bB): captures restAngle and the torque arm
L = |scaleA + scaleB|^2, sets the three row stiffnesses, and the angular
row bounds and fracture threshold. -/
def newJoint (aIdx bIdx : ℕ) (bA bB : Body) (rA rB : Vec2)
    (stiff0 stiff1 stiff2 : Ext) (fracture : Ext) : Force :=
  let tSum : Vec2 := ⟨bA.scaleW + bB.scaleW, bA.scaleH + bB.scaleH⟩
  let f := baseRows (.joint
    { rA := rA, rB := rB, C0 := Vec3.zero
      torqueArm := Vec2.sqrLen tSum
      restAngle := bA.pos.z - bB.pos.z
      bodyA := some aIdx, bodyB := bIdx })
  { f with
    stiffness := fun k =>
      if k = 0 then stiff0 else if k = 1 then stiff1 else
      if k = 2 then stiff2 else f.stiffness k
    fmax := fun k => if k = 2 then fracture else f.fmax k
    fmin := fun k => if k = 2 then
        (match fracture with | .fin q => .fin (-q) | .pinf => .ninf | .ninf => .pinf)
      else f.fmin k
    fracture := fun k => if k = 2 then fracture else f.fracture k }

/-! ## Joint kernels (GameRenderer.ts lines 856-922) -/

/-- body lookup by index (total; scenes only use valid indices). -/
def getBody (bodies : List Body) (i : ℕ) : Body :=
  bodies.getD i (mkRigidBox rfZero ⟨0, 0⟩ 0 0 Vec3.zero Vec3.zero)

/-- The raw joint constraint value Cn(q) computed from the current body
poses (GameRenderer.ts lines 879-885, shared with initialize). -/
def jointCn (rf : RealFuns) (bodies : List Body) (jd : JointData) : Vec3 :=
  let posA := transform2D rf
    (match jd.bodyA with | some a => (getBody bodies a).pos | none => Vec3.zero) jd.rA
  let posB := transform2D rf (getBody bodies jd.bodyB).pos jd.rB
  let angleA := match jd.bodyA with | some a => (getBody bodies a).pos.z | none => 0
  let angleB := (getBody bodies jd.bodyB).pos.z
  ⟨posA.x - posB.x, posA.y - posB.y, (angleA - angleB - jd.restAngle) * jd.torqueArm⟩

/-- Joint.initialize: recompute C0 from the current poses; the force stays
in use iff some row stiffness is nonzero. -/
def jointInitialize (rf : RealFuns) (bodies : List Body) (f : Force)
    (jd : JointData) : Force × Bool :=
  let C0 := jointCn rf bodies jd
  ({ f with kind := .joint { jd with C0 := C0 } },
   (f.stiffness 0).neZero || (f.stiffness 1).neZero || (f.stiffness 2).neZero)

/-- Joint.computeConstraints: C[i] = Cn[i], except hard rows
(stiffness === Infinity) use C[i] = Cn[i] - C0[i] * alpha. -/
def jointComputeConstraints (rf : RealFuns) (bodies : List Body) (f : Force)
    (jd : JointData) (alpha : ℚ) : Force :=
  let Cn := jointCn rf bodies jd
  let cval : ℕ → ℚ := fun i =>
    let cn := if i = 0 then Cn.x else if i = 1 then Cn.y else Cn.z
    let c0 := if i = 0 then jd.C0.x else if i = 1 then jd.C0.y else jd.C0.z
    if (f.stiffness i).isPInf then cn - c0 * alpha else cn
  { f with C := fun k => if k < 3 then cval k else f.C k }

/-- Joint.computeDerivatives for the body at index `bi`. -/
def jointComputeDerivatives (rf : RealFuns) (bodies : List Body) (f : Force)
    (jd : JointData) (bi : ℕ) : Force :=
  if jd.bodyA = some bi then
    let r := rotate2D rf jd.rA (getBody bodies bi).pos.z
    { f with
      J := fun k =>
        if k = 0 then ⟨1, 0, -r.y⟩ else if k = 1 then ⟨0, 1, r.x⟩ else
        if k = 2 then ⟨0, 0, jd.torqueArm⟩ else f.J k
      H := fun k =>
        if k = 0 then ⟨0, 0, 0, 0, 0, 0, 0, 0, -r.x⟩ else
        if k = 1 then ⟨0, 0, 0, 0, 0, 0, 0, 0, -r.y⟩ else
        if k = 2 then Mat3.zero else f.H k }
  else if jd.bodyB = bi then
    let r := rotate2D rf jd.rB (getBody bodies bi).pos.z
    { f with
      J := fun k =>
        if k = 0 then ⟨-1, 0, r.y⟩ else if k = 1 then ⟨0, -1, -r.x⟩ else
        if k = 2 then ⟨0, 0, -jd.torqueArm⟩ else f.J k
      H := fun k =>
        if k = 0 then ⟨0, 0, 0, 0, 0, 0, 0, 0, r.x⟩ else
        if k = 1 then ⟨0, 0, 0, 0, 0, 0, 0, 0, r.y⟩ else
        if k = 2 then Mat3.zero else f.H k }
  else f

/-! ## Manifold collision (Manifold.ts) -/

/-- The collision margin added to the normal component of C0. -/
def COLLISION_MARGIN : ℚ := 1 / 2000

def STICK_THRESHOLD : ℚ := 1 / 100

structure ClipVertex where
  cd : Details
  v : Vec2
deriving DecidableEq, Repr

/-- Manifold.ClipSegmentToLine: Sutherland-Hodgman clip of the segment
(vIn0, vIn1) against the half plane dot(normal, v) <= offset.  The result
list is in the source's write order; its length is the returned numOut
(never above 2, since a third survivor would need d0 <= 0, d1 <= 0 and
d0 * d1 < 0 at once). -/
def clipSegmentToLine (vIn0 vIn1 : ClipVertex) (normal : Vec2) (offset : ℚ)
    (clipEdge : ℕ) : List ClipVertex :=
  let d0 := Vec2.dot normal vIn0.v - offset
  let d1 := Vec2.dot normal vIn1.v - offset
  let keep0 : List ClipVertex := if d0 ≤ 0 then [vIn0] else []
  let keep1 : List ClipVertex := if d1 ≤ 0 then [vIn1] else []
  let inter : List ClipVertex :=
    if d0 * d1 < 0 then
      let interp := d0 / (d0 - d1)
      let v := Vec2.add vIn0.v (Vec2.scale (Vec2.sub vIn1.v vIn0.v) interp)
      let cd0 := if d0 > 0 then vIn0.cd else vIn1.cd
      let cd1 := if d0 > 0 then { cd0 with in1 := clipEdge, in2 := 0 }
                 else { cd0 with out1 := clipEdge, out2 := 0 }
      [{ cd := { cd1 with id := packFeatureID cd1 }, v := v }]
    else []
  keep0 ++ keep1 ++ inter

/-- Manifold.ComputeIncidentEdge: on the incident box (half extents h,
position pos, rotation rot), select the edge most anti-parallel to the
reference normal; returns its endpoints in world space with edge tags on
the body-2 slots. -/
def computeIncidentEdge (h pos : Vec2) (rot : Mat2) (normal : Vec2) :
    ClipVertex × ClipVertex :=
  let n0 := (rot.transpose).apply normal
  let n : Vec2 := ⟨-n0.x, -n0.y⟩
  let c0d := Details.default
  let pick : (Vec2 × ℕ × ℕ) × (Vec2 × ℕ × ℕ) :=
    if |n.x| > |n.y| then
      if n.x > 0 then
        ((⟨h.x, -h.y⟩, 3, 4), (⟨h.x, h.y⟩, 4, 1))
      else
        ((⟨-h.x, h.y⟩, 1, 2), (⟨-h.x, -h.y⟩, 2, 3))
    else
      if n.y > 0 then
        ((⟨h.x, h.y⟩, 4, 1), (⟨-h.x, h.y⟩, 1, 2))
      else
        ((⟨-h.x, -h.y⟩, 2, 3), (⟨h.x, -h.y⟩, 3, 4))
  let mk : Vec2 × ℕ × ℕ → ClipVertex := fun t =>
    { cd := { c0d with in2 := t.2.1, out2 := t.2.2 }
      v := Vec2.add pos (rot.apply t.1) }
  (mk pick.1, mk pick.2)

inductive Axis where
  | faceAX | faceAY | faceBX | faceBY
deriving DecidableEq, Repr

/-- Manifold.collide, scanning part: SAT narrow phase between the oriented
boxes at body states bA and bB, then reference-face selection with the
0.95/0.01 bias ladder, incident-edge clipping, and survivor collection
(the candidates are the first two clipped vertices, kept when behind the
reference face). -/
def collideScan (rf : RealFuns) (bA bB : Body) : List Contact :=
  let RA := rotationMatrix rf bA.pos.z
  let RB := rotationMatrix rf bB.pos.z
  let RtA := RA.transpose
  let RtB := RB.transpose
  let hA : Vec2 := ⟨bA.scaleW * (1 / 2), bA.scaleH * (1 / 2)⟩
  let hB : Vec2 := ⟨bB.scaleW * (1 / 2), bB.scaleH * (1 / 2)⟩
  let posA := bA.pos2
  let posB := bB.pos2
  let rotA := RA
  let rotB := RB
  let diff := Vec2.sub posB posA
  let dA := RtA.apply diff
  let dB := RtB.apply diff
  let absDA : Vec2 := ⟨|dA.x|, |dA.y|⟩
  let absDB : Vec2 := ⟨|dB.x|, |dB.y|⟩
  let Cm := RtA.mul rotB
  let absC : Mat2 := ⟨|Cm.m0|, |Cm.m1|, |Cm.m2|, |Cm.m3|⟩
  let absCT := absC.transpose
  let faceA := Vec2.sub absDA (Vec2.add hA (absC.apply hB))
  let faceB := Vec2.sub absDB (Vec2.add hB (absCT.apply hA))
  if faceA.x > 0 ∨ faceA.y > 0 ∨ faceB.x > 0 ∨ faceB.y > 0 then []
  else
    -- reference-axis selection ladder (relativeTol 0.95, absoluteTol 0.01)
    let n1 : Vec2 := if dA.x > 0 then ⟨rotA.m0, rotA.m1⟩ else ⟨-rotA.m0, -rotA.m1⟩
    let sep1 := faceA.x
    let pick2 : Axis × ℚ × Vec2 :=
      if faceA.y > (95 / 100) * sep1 + (1 / 100) * hA.y then
        (.faceAY, faceA.y,
          if dA.y > 0 then ⟨rotA.m2, rotA.m3⟩ else ⟨-rotA.m2, -rotA.m3⟩)
      else (.faceAX, sep1, n1)
    let pick3 : Axis × ℚ × Vec2 :=
      if faceB.x > (95 / 100) * pick2.2.1 + (1 / 100) * hB.x then
        (.faceBX, faceB.x,
          if dB.x > 0 then ⟨rotB.m0, rotB.m1⟩ else ⟨-rotB.m0, -rotB.m1⟩)
      else pick2
    let pick4 : Axis × ℚ × Vec2 :=
      if faceB.y > (95 / 100) * pick3.2.1 + (1 / 100) * hB.y then
        (.faceBY, faceB.y,
          if dB.y > 0 then ⟨rotB.m2, rotB.m3⟩ else ⟨-rotB.m2, -rotB.m3⟩)
      else pick3
    let bestAxis := pick4.1
    let n := pick4.2.2
    -- clipping plane setup per reference face
    let setup : Vec2 × ℚ × Vec2 × ℚ × ℚ × ℕ × ℕ × (ClipVertex × ClipVertex) :=
      match bestAxis with
      | .faceAX =>
        let frontNormal := n
        let front := Vec2.dot posA frontNormal + hA.x
        let sideNormal : Vec2 := ⟨rotA.m2, rotA.m3⟩
        let side := Vec2.dot posA sideNormal
        (frontNormal, front, sideNormal, -side + hA.y, side + hA.y, 3, 1,
          computeIncidentEdge hB posB rotB frontNormal)
      | .faceAY =>
        let frontNormal := n
        let front := Vec2.dot posA frontNormal + hA.y
        let sideNormal : Vec2 := ⟨rotA.m0, rotA.m1⟩
        let side := Vec2.dot posA sideNormal
        (frontNormal, front, sideNormal, -side + hA.x, side + hA.x, 2, 4,
          computeIncidentEdge hB posB rotB frontNormal)
      | .faceBX =>
        let frontNormal := Vec2.scale n (-1)
        let front := Vec2.dot posB frontNormal + hB.x
        let sideNormal : Vec2 := ⟨rotB.m2, rotB.m3⟩
        let side := Vec2.dot posB sideNormal
        (frontNormal, front, sideNormal, -side + hB.y, side + hB.y, 3, 1,
          computeIncidentEdge hA posA rotA frontNormal)
      | .faceBY =>
        let frontNormal := Vec2.scale n (-1)
        let front := Vec2.dot posB frontNormal + hB.y
        let sideNormal : Vec2 := ⟨rotB.m0, rotB.m1⟩
        let side := Vec2.dot posB sideNormal
        (frontNormal, front, sideNormal, -side + hB.x, side + hB.x, 2, 4,
          computeIncidentEdge hA posA rotA frontNormal)
    let frontNormal := setup.1
    let front := setup.2.1
    let sideNormal := setup.2.2.1
    let negSide := setup.2.2.2.1
    let posSide := setup.2.2.2.2.1
    let negEdge := setup.2.2.2.2.2.1
    let posEdge := setup.2.2.2.2.2.2.1
    let incidentEdge := setup.2.2.2.2.2.2.2
    let cp1 := clipSegmentToLine incidentEdge.1 incidentEdge.2
      (Vec2.scale sideNormal (-1)) negSide negEdge
    if h1 : cp1.length < 2 then []
    else
      let cp2 := clipSegmentToLine (cp1.get ⟨0, by omega⟩) (cp1.get ⟨1, by omega⟩)
        sideNormal posSide posEdge
      if cp2.length < 2 then []
      else
        let isBFace := bestAxis = Axis.faceBX ∨ bestAxis = Axis.faceBY
        let mk : ClipVertex → Option Contact := fun cv =>
          let sep := Vec2.dot frontNormal cv.v - front
          if sep ≤ 0 then
            let slid := Vec2.sub cv.v (Vec2.scale frontNormal sep)
            let det0 := if isBFace then cv.cd.flip else cv.cd
            some { Contact.empty with
              n := Vec2.scale n (-1)
              pA := RtA.apply (Vec2.sub (if isBFace then cv.v else slid) posA)
              pB := RtB.apply (Vec2.sub (if isBFace then slid else cv.v) posB)
              details := { det0 with id := packFeatureID det0 } }
          else none
        (cp2.take 2).filterMap mk

/-- Manifold.collide: the survivor loop visits the first two clipped
vertices and additionally breaks once two contacts are accepted
(`if (numContacts === 2) break`), so the result is capped at two. -/
def collide (rf : RealFuns) (bA bB : Body) : List Contact :=
  (collideScan rf bA bB).take 2

/-! ## Manifold kernels -/

/-- Manifold.initialize: recompute the effective friction, snapshot the old
contacts and their warm-start data, re-collide, merge by feature ID
(inheriting penalty, lambda, stick, and - when sticking - the old local
offsets), then precompute the contact basis, Jacobians and C0.  Returns
the updated force and whether any contact survived. -/
def manifoldInitialize (rf : RealFuns) (bodies : List Body) (f : Force)
    (md : ManifoldData) : Force × Bool :=
  let bA := getBody bodies md.bodyA
  let bB := getBody bodies md.bodyB
  let friction := rf.sqrt (bA.friction * bB.friction)
  let old := md.contacts
  let fresh := collide rf bA bB
  -- merge step: default warm-start state, then inherit by feature ID
  let merged : List (Contact × ℚ × ℚ × ℚ × ℚ) := fresh.map fun c =>
    match old.findIdx? (fun oc => oc.details.id = c.details.id) with
    | some j =>
      let oc := old.getD j Contact.empty
      let c1 := { c with stick := oc.stick }
      let c2 := if oc.stick then { c1 with pA := oc.pA, pB := oc.pB } else c1
      (c2, f.penalty (j * 2), f.penalty (j * 2 + 1), f.lam (j * 2), f.lam (j * 2 + 1))
    | none => ({ c with stick := false }, 0, 0, 0, 0)
  -- precompute basis, Jacobians and C0 for each merged contact
  let finalContacts : List Contact := merged.map fun t =>
    let c := t.1
    let n := c.n
    let tv : Vec2 := ⟨n.y, -n.x⟩
    let rotatedAW := (rotationMatrix rf bA.pos.z).apply c.pA
    let rotatedBW := (rotationMatrix rf bB.pos.z).apply c.pB
    let rDiff := Vec2.sub (Vec2.add bA.pos2 rotatedAW) (Vec2.add bB.pos2 rotatedBW)
    -- basis = mat2(n.x, n.y, t.x, t.y); transformMat2 gives
    -- (n.x * d.x + t.x * d.y, n.y * d.x + t.y * d.y)
    let C0v : Vec2 := ⟨n.x * rDiff.x + tv.x * rDiff.y + COLLISION_MARGIN,
                       n.y * rDiff.x + tv.y * rDiff.y⟩
    { c with
      jacNormA := ⟨n.x, tv.x, cross2 rotatedAW n⟩
      jacNormB := ⟨-n.x, -tv.x, -(cross2 rotatedBW n)⟩
      jacTangA := ⟨n.y, tv.y, cross2 rotatedAW tv⟩
      jacTangB := ⟨-n.y, -tv.y, -(cross2 rotatedBW tv)⟩
      C0 := C0v }
  let penalty2 : ℕ → ℚ := fun k =>
    if k < 2 * merged.length then
      let t := merged.getD (k / 2) (Contact.empty, 0, 0, 0, 0)
      if k % 2 = 0 then t.2.1 else t.2.2.1
    else f.penalty k
  let lam2 : ℕ → ℚ := fun k =>
    if k < 2 * merged.length then
      let t := merged.getD (k / 2) (Contact.empty, 0, 0, 0, 0)
      if k % 2 = 0 then t.2.2.2.1 else t.2.2.2.2
    else f.lam k
  ({ f with
      kind := .manifold { md with contacts := finalContacts, friction := friction }
      penalty := penalty2
      lam := lam2 },
   decide (0 < finalContacts.length))

/-- Manifold.computeConstraints: the loop over contacts i = 0, 1, ...; the
iteration for contact i writes only the rows 2i and 2i+1 and the stick
flag of contact i, and reads only data the loop never writes (the body
poses, the precomputed C0 and Jacobians, lambda and the friction), so the
loop is rendered pointwise.  Row 2i is the Taylor-stabilized
(1-alpha)*C0 plus relative motion, the tangential bounds are refreshed to
+-|lambda[2i]| * friction, and stick is retested. -/
def manifoldComputeConstraints (bodies : List Body) (f : Force)
    (md : ManifoldData) (alpha : ℚ) : Force :=
  let bA := getBody bodies md.bodyA
  let bB := getBody bodies md.bodyB
  let diffpA := Vec3.sub bA.pos bA.lastPos
  let diffpB := Vec3.sub bB.pos bB.lastPos
  let n := md.contacts.length
  let bound : ℕ → ℚ := fun k => |f.lam (k - 1)| * md.friction
  { f with
    C := fun k =>
      if k < 2 * n then
        let c := md.contacts.getD (k / 2) Contact.empty
        if k % 2 = 0 then
          c.C0.x * (1 - alpha) + Vec3.dot c.jacNormA diffpA + Vec3.dot c.jacNormB diffpB
        else
          c.C0.y * (1 - alpha) + Vec3.dot c.jacTangA diffpA + Vec3.dot c.jacTangB diffpB
      else f.C k
    fmax := fun k =>
      if k < 2 * n ∧ k % 2 = 1 then .fin (bound k) else f.fmax k
    fmin := fun k =>
      if k < 2 * n ∧ k % 2 = 1 then .fin (-(bound k)) else f.fmin k
    kind := .manifold
      { md with
        contacts := (List.range n).map fun i =>
          let c := md.contacts.getD i Contact.empty
          { c with stick :=
              decide (|f.lam (i * 2 + 1)| < |f.lam (i * 2)| * md.friction) &&
              decide (|c.C0.y| < STICK_THRESHOLD) } } }

/-- Manifold.computeDerivatives for the body at index bi: copy the
precomputed normal/tangent Jacobians into the row array (the A side when
bi is bodyA, otherwise the B side, mirroring the source's if/else). -/
def manifoldComputeDerivatives (f : Force) (md : ManifoldData) (bi : ℕ) : Force :=
  { f with
    J := fun k =>
      if k < 2 * md.contacts.length then
        let c := md.contacts.getD (k / 2) Contact.empty
        if md.bodyA = bi then (if k % 2 = 0 then c.jacNormA else c.jacTangA)
        else (if k % 2 = 0 then c.jacNormB else c.jacTangB)
      else f.J k }

/-! ## virtual dispatch -/

def forceInitialize (rf : RealFuns) (bodies : List Body) (f : Force) :
    Force × Bool :=
  match f.kind with
  | .joint jd => jointInitialize rf bodies f jd
  | .manifold md => manifoldInitialize rf bodies f md

def forceComputeConstraints (rf : RealFuns) (bodies : List Body) (f : Force)
    (alpha : ℚ) : Force :=
  match f.kind with
  | .joint jd => jointComputeConstraints rf bodies f jd alpha
  | .manifold md => manifoldComputeConstraints bodies f md alpha

def forceComputeDerivatives (rf : RealFuns) (bodies : List Body) (f : Force)
    (bi : ℕ) : Force :=
  match f.kind with
  | .joint jd => jointComputeDerivatives rf bodies f jd bi
  | .manifold md => manifoldComputeDerivatives f md bi

def dfltForce : Force :=
  baseRows (.joint ⟨⟨0, 0⟩, ⟨0, 0⟩, Vec3.zero, 0, 0, none, 0⟩)

instance : Inhabited Force := ⟨dfltForce⟩

/-! ## Solver (Solver.ts)

The solver state is modelled for scenes made of rigid bodies and forces;
the FEM-energy list of the source is empty here, which makes the energy
sub-loops of `step` no-ops exactly as in the source with no registered
energies, and leaves the trust-region/projection fields inert.  The
performance accounting (wall-clock timing) and the render queues are
external-interface state outside every claim and are not modelled.
`body.forces` attachment order is modelled as force-list order (the
source fills both in construction order). -/

def PENALTY_MIN : ℚ := 1

def PENALTY_MAX : ℚ := 1000000000

def MAX_STEPS : ℤ := -100

structure State where
  dt : ℚ
  gravX : ℚ
  gravY : ℚ
  alpha : ℚ
  beta : ℚ
  gamma : ℚ
  iterations : ℕ
  postStabilization : Bool
  paused : Bool
  urgentStop : Bool
  currentSteps : ℤ
  bodies : List Body
  forces : List Force

/-- RigidBox.isConstrainedTo(bodyB) scanned from the force list: some force
touching body i also references body j. -/
def constrainedTo (fs : List Force) (i j : ℕ) : Bool :=
  fs.any (fun f => f.touches i && f.touches j)

/-- The naive O(n^2) broadphase: for each pair i < j in body-list order,
admit the pair when the bounding circles overlap and the bodies are not
already constrained to each other, and append a fresh Manifold. -/
def broadphase (s : State) : State :=
  let n := s.bodies.length
  let forces2 := (List.range n).foldl (fun fs i =>
    (List.range n).foldl (fun fs j =>
      if j ≤ i then fs
      else
        let bA := getBody s.bodies i
        let bB := getBody s.bodies j
        let dp := Vec2.sub bA.pos2 bB.pos2
        let r := bA.radius + bB.radius
        if Vec2.sqrLen dp ≤ r * r ∧ ¬ constrainedTo fs i j
        then fs ++ [newManifold i j] else fs) fs) s.forces
  { s with forces := forces2 }

/-- The per-row warm-start decay applied after a successful initialize
(Solver lines 205-225): with post-stabilization only the penalty is
decayed by gamma and clamped into [PENALTY_MIN, PENALTY_MAX]; otherwise
lambda is also decayed by alpha * gamma.  Either way the penalty is then
capped by the row stiffness. -/
def warmDecay (postStab : Bool) (alpha gamma : ℚ) (f : Force) : Force :=
  let rows := f.rows
  { f with
    lam := fun k =>
      if postStab = false ∧ k < rows then f.lam k * alpha * gamma else f.lam k
    penalty := fun k =>
      if k < rows then
        Ext.minQ (f.stiffness k) (min (max (f.penalty k * gamma) PENALTY_MIN) PENALTY_MAX)
      else f.penalty k }

/-- Force initialization sweep (Solver lines 187-226): initialize each
force in order, drop (and destroy) the ones that report themselves unused,
and apply the warm-start row decay to the survivors. -/
def initForces (rf : RealFuns) (s : State) : State :=
  { s with
    forces := s.forces.foldl (fun acc f =>
      let r := forceInitialize rf s.bodies f
      if r.2 then acc ++ [warmDecay s.postStabilization s.alpha s.gamma r.1]
      else acc) [] }

/-- The adaptive warm-start weight (Solver lines 276-280): the fraction of
the previous-step acceleration aligned with gravity, clamped into [0, 1]. -/
def accWeight (gravY dt : ℚ) (vel prevVel : Vec3) : ℚ :=
  let accel := (Vec3.sub vel prevVel).scale (1 / dt)
  let accelExt := accel.y * qsign gravY
  let aw0 := accelExt / |gravY|
  if aw0 < 0 then 0 else if aw0 > 1 then 1 else aw0

/-- Body warm-start (Solver lines 256-286): clamp the rotational velocity
to [-50, 50] (a no-op on static bodies, whose velocity setter ignores the
write), store the free-flight prediction `inertial` (full gravity term,
skipped when mass = 0), compute the adaptive warm-start weight from the
previous-step acceleration, record `lastPos`, and advance the position by
v*dt plus the WEIGHTED gravity term. -/
def warmstartBody (gravX gravY dt : ℚ) (b : Body) : Body :=
  let rv0 := b.vel.z
  let rv := if rv0 > 50 then 50 else if rv0 < -50 then -50 else rv0
  let b1 := b.setVelocity ⟨b.vel.x, b.vel.y, rv⟩
  let inertial0 := Vec3.add b1.pos (b1.vel.scale dt)
  let inertial := if b1.mass ≠ 0 then
      Vec3.add inertial0 (Vec3.scale ⟨gravX, gravY, 0⟩ (dt * dt))
    else inertial0
  let aw := accWeight gravY dt b1.vel b1.prevVel
  let term2 := b1.vel.scale dt
  let term3 := Vec3.scale ⟨gravX, gravY, 0⟩ (aw * dt * dt)
  { b1 with
    inertial := inertial
    lastPos := b1.pos
    pos := Vec3.add b1.pos (Vec3.add term2 term3) }

/-- One row of the primal accumulation (Solver lines 315-338): clamped
force magnitude, diagonal geometric-stiffness regularizer G from the
Hessian column norms, and the rank-one penalty term. -/
def primalRow (rf : RealFuns) (f : Force) (acc : Mat3 × Vec3) (j : ℕ) :
    Mat3 × Vec3 :=
  let lamLoc := if (f.stiffness j).isPInf then f.lam j else 0
  let fq := (f.fmax j).clampAbove ((f.fmin j).clampBelow (f.penalty j * f.C j + lamLoc))
  let H := f.H j
  let G : Mat3 :=
    (⟨vec3Len rf ⟨H.e0, H.e3, H.e6⟩, 0, 0,
      0, vec3Len rf ⟨H.e1, H.e4, H.e7⟩, 0,
      0, 0, vec3Len rf ⟨H.e2, H.e5, H.e8⟩⟩ : Mat3).smul |fq|
  let rhs := Vec3.add acc.2 ((f.J j).scale fq)
  let lhs := Mat3.add (Mat3.add acc.1 (outerMat3D (f.J j) ((f.J j).scale (f.penalty j)))) G
  (lhs, rhs)

/-- The body of the `for (const force of body.forces)` loop of the primal
block solve: if the force at index fi touches body bi, compute its
constraints and derivatives (these persist in the force list) and
accumulate its rows into (lhs, rhs). -/
def primalForceStep (rf : RealFuns) (bodies : List Body) (alpha : ℚ) (bi : ℕ)
    (acc : List Force × (Mat3 × Vec3)) (fi : ℕ) : List Force × (Mat3 × Vec3) :=
  let f := acc.1.getD fi dfltForce
  if f.touches bi then
    let f1 := forceComputeConstraints rf bodies f alpha
    let f2 := forceComputeDerivatives rf bodies f1 bi
    let lr := (List.range f2.rows).foldl (primalRow rf f2) acc.2
    (acc.1.set fi f2, lr)
  else acc

/-- The primal block solve for the body at index bi (Solver lines 297-387):
build M/dt^2, loop over the forces attached to the body (computing their
constraints and derivatives, which persist), accumulate rows, and apply
the LDL^T update q := q - dx. -/
def primalBody (rf : RealFuns) (dt alpha : ℚ) (st : List Body × List Force)
    (bi : ℕ) : List Body × List Force :=
  let bodies := st.1
  let b := getBody bodies bi
  if b.staticBody then st
  else
    let M : Mat3 := ⟨b.mass, 0, 0, 0, b.mass, 0, 0, 0, b.moment⟩
    let lhs0 := M.smul (1 / (dt * dt))
    let rhs0 := lhs0.apply (Vec3.sub b.pos b.inertial)
    let res := (List.range st.2.length).foldl (primalForceStep rf bodies alpha bi)
      (st.2, (lhs0, rhs0))
    let dx := solveLDLT res.2.1 res.2.2
    (bodies.set bi { b with pos := Vec3.sub b.pos dx }, res.1)

/-- Dual update of row j, stage 1 (Solver lines 423-428): recompute and
clamp lambda. -/
def dualLamUpdate (f : Force) (j : ℕ) : Force :=
  let lamLoc := if (f.stiffness j).isPInf then f.lam j else 0
  let lnew := (f.fmax j).clampAbove ((f.fmin j).clampBelow (lamLoc + f.penalty j * f.C j))
  { f with lam := upd f.lam j lnew }

/-- Dual update of row j, stage 2 (Solver line 431): disable the force
when the new lambda crosses the fracture threshold. -/
def dualMaybeDisable (f : Force) (j : ℕ) : Force :=
  if (f.fracture j).leAbs (f.lam j) then f.disable else f

/-- Dual update of row j, stage 3 (Solver lines 434-437): grow the penalty
only when the new lambda is strictly inside its bounds. -/
def dualMaybeGrow (beta : ℚ) (f : Force) (j : ℕ) : Force :=
  let grown := min (f.penalty j + beta * |f.C j|) (Ext.minQ (f.stiffness j) PENALTY_MAX)
  if (f.fmin j).ltQ (f.lam j) && (f.fmax j).gtQ (f.lam j) then
    { f with penalty := upd f.penalty j grown }
  else f

/-- One row of the dual update (Solver lines 421-438), in source order. -/
def dualRowStep (beta : ℚ) (f : Force) (j : ℕ) : Force :=
  dualMaybeGrow beta (dualMaybeDisable (dualLamUpdate f j) j) j

/-- The dual update of one force: recompute constraints at the current
alpha and run the row loop. -/
def dualForce (rf : RealFuns) (bodies : List Body) (alpha beta : ℚ)
    (f : Force) : Force :=
  let f1 := forceComputeConstraints rf bodies f alpha
  (List.range f1.rows).foldl (dualRowStep beta) f1

/-- Post-stabilization velocity extraction (Solver lines 459-473): for
bodies with positive mass, v := (q - last_q + drag)/dt, folding in and
clearing the drag velocity when dragged. -/
def velExtract (dt : ℚ) (b : Body) : Body :=
  if b.mass > 0 then
    let pv := b.vel
    let nv0 := Vec3.sub b.pos b.lastPos
    let nv1 := if b.isDragged then Vec3.add nv0 b.addedDragVel else nv0
    let adv := if b.isDragged then Vec3.zero else b.addedDragVel
    let b1 : Body := { b with prevVel := pv, addedDragVel := adv }
    b1.setVelocity (nv1.scale (1 / dt))
  else b

structure LoopSt where
  bodies : List Body
  forces : List Force
  trace : List ℚ

/-- One iteration of the main loop (Solver lines 291-475): currentAlpha is
read from the solver's alpha (line 293: `let currentAlpha = this.alpha`,
never reassigned), the primal pass visits bodies in order, the dual update
runs only while iter < iterations, and the velocity extraction fires on
iter = iterations - 1.  The iteration's currentAlpha, which is the value
handed to every computeConstraints call of the iteration, is appended to
the trace. -/
def mainIter (rf : RealFuns) (dt alpha beta : ℚ) (iterations : ℕ)
    (st : LoopSt) (iter : ℕ) : LoopSt :=
  let currentAlpha := alpha
  let p := (List.range st.bodies.length).foldl
    (primalBody rf dt currentAlpha) (st.bodies, st.forces)
  let forces2 := if iter < iterations
    then p.2.map (dualForce rf p.1 currentAlpha beta) else p.2
  let bodies3 := if (iter : ℤ) = (iterations : ℤ) - 1
    then p.1.map (velExtract dt) else p.1
  { bodies := bodies3, forces := forces2, trace := st.trace ++ [currentAlpha] }

/-- Solver.step with an instrumented trace of the alpha value used by each
iteration of the main loop.  The dtArg parameter is only compared against
the stored dt for a console warning in the source; the physics always uses
the stored dt, so dtArg is ignored here. -/
def stepT (rf : RealFuns) (_dtArg : ℚ) (s : State) : State × List ℚ :=
  if s.urgentStop then (s, [])
  else if s.paused then (s, [])
  else if MAX_STEPS > 0 ∧ s.currentSteps > MAX_STEPS then
    ({ s with urgentStop := true }, [])
  else
    let s1 := broadphase s
    let s2 := initForces rf s1
    let bodies2 := s2.bodies.map (warmstartBody s.gravX s.gravY s.dt)
    let iters := s.iterations + (if s.postStabilization then 1 else 0)
    let res := (List.range iters).foldl
      (mainIter rf s.dt s.alpha s.beta s.iterations)
      { bodies := bodies2, forces := s2.forces, trace := [] }
    ({ s2 with bodies := res.bodies, forces := res.forces }, res.trace)

/-- Solver.step. -/
def step (rf : RealFuns) (dtArg : ℚ) (s : State) : State :=
  (stepT rf dtArg s).1

/-- The list of alpha values passed to computeConstraints, one per
iteration of the main loop of a step. -/
def stepAlphas (rf : RealFuns) (dtArg : ℚ) (s : State) : List ℚ :=
  (stepT rf dtArg s).2

/-- Solver.Clear: empty the lists, destroy everything, reset dt and the
latched urgent-stop flag (lines 71-105). -/
def Clear (s : State) : State :=
  { s with
    forces := []
    bodies := []
    dt := 1 / 60
    postStabilization := true
    urgentStop := false }

/-- Solver.addRigidBox: push only when not already present (indexOf check).
Bodies are modelled by their registration key. -/
def addRigidBox (bodies : List ℕ) (box : ℕ) : List ℕ :=
  if bodies.indexOf box = bodies.length then bodies ++ [box] else bodies

/-- Solver.addForce. -/
def addForce (forces : List ℕ) (force : ℕ) : List ℕ :=
  if forces.indexOf force = forces.length then forces ++ [force] else forces

/-- Solver.addEnergy. -/
def addEnergy (energies : List ℕ) (energy : ℕ) : List ℕ :=
  if energies.indexOf energy = energies.length then energies ++ [energy] else energies

/-! ## Concrete scenes

All angles in these scenes are 0 and all square roots are taken at
perfect squares of rationals, so `rfZero` agrees with the exact real
functions at every point these executions evaluate them. -/

/-- A static floor: scale (8,6), density 0 (mass 0, static), friction 1,
centered at (0,-3) so its top face is at y = 0.  radius = sqrt(100)/2 = 5. -/
def floorBody : Body :=
  mkRigidBox rfZero ⟨8, 6⟩ 0 1 ⟨0, -3, 0⟩ Vec3.zero

/-- A dynamic box: scale (3,4), density 1/12 (mass 1, moment 25/12),
friction 1, centered at (0, 1.95) so it penetrates the floor top by 0.05,
sliding sideways at 6 and rising at 3 units/s. -/
def slideBox : Body :=
  mkRigidBox rfZero ⟨3, 4⟩ (1 / 12) 1 ⟨0, 39 / 20, 0⟩ ⟨6, 3, 0⟩

/-- A previous-step contact carrying only its feature ID and warm-start
data; the geometry is recomputed at initialize. -/
def seedContact (idv : ℕ) : Contact :=
  { Contact.empty with details := { Details.default with id := idv } }

/-- A warm manifold between the floor (0) and the box (1), as left by a
previous step: both persistent contacts carry normal multiplier -10 and
penalty 10^6.  The feature IDs are the ones collide regenerates for the
box-bottom corners on the floor top face. -/
def seedManifold : Force :=
  let f := newManifold 0 1
  { f with
    kind := .manifold ⟨0, 1, [seedContact 50462720, seedContact 67305472], 0⟩
    lam := fun k => if k = 0 ∨ k = 2 then -10 else 0
    penalty := fun k => if k < 4 then 1000000 else 0 }

/-- The sliding-contact scene: gravity (0,-9.81), alpha 1, gamma 1, one
iteration, post-stabilization off. -/
def coneState : State :=
  { dt := 1 / 60, gravX := 0, gravY := -981 / 100, alpha := 1,
    beta := 100000, gamma := 1, iterations := 1, postStabilization := false,
    paused := false, urgentStop := false, currentSteps := 0,
    bodies := [floorBody, slideBox], forces := [seedManifold] }

/-- Dynamic unit-mass box at the origin, at rest. -/
def jointBodyA : Body :=
  mkRigidBox rfZero ⟨3, 4⟩ (1 / 12) 1 ⟨0, 0, 0⟩ Vec3.zero

/-- Dynamic unit-mass box at (100, 0), at rest: far outside every bounding
circle, so the broadphase admits no pair. -/
def jointBodyB : Body :=
  mkRigidBox rfZero ⟨3, 4⟩ (1 / 12) 1 ⟨100, 0, 0⟩ Vec3.zero

/-- A hard joint between the two separated boxes whose angular fracture
threshold is 0, so the first dual update disables it. -/
def fragileJoint : Force :=
  newJoint 0 1 jointBodyA jointBodyB ⟨0, 0⟩ ⟨0, 0⟩ .pinf .pinf .pinf (.fin 0)

/-- Scene in which `fragileJoint` fractures during the step. -/
def fractureState : State :=
  { dt := 1 / 60, gravX := 0, gravY := -981 / 100, alpha := 99 / 100,
    beta := 100000, gamma := 99 / 100, iterations := 1,
    postStabilization := false, paused := false, urgentStop := false,
    currentSteps := 0, bodies := [jointBodyA, jointBodyB],
    forces := [fragileJoint] }

/-- A joint that fractured in an earlier step: `disable()` has zeroed its
stiffness, penalty and lambda rows. -/
def fracturedJoint : Force :=
  (newJoint 0 1 jointBodyA jointBodyB ⟨0, 0⟩ ⟨0, 0⟩ .pinf .pinf .pinf
    (.fin 100)).disable

/-- Scene containing only the already-fractured joint. -/
def fracturedState : State :=
  { fractureState with forces := [fracturedJoint] }

/-- Empty scene with post-stabilization enabled and one configured
iteration, for observing the alpha values of the main loop. -/
def traceState : State :=
  { dt := 1 / 60, gravX := 0, gravY := -981 / 100, alpha := 99 / 100,
    beta := 100000, gamma := 99 / 100, iterations := 1,
    postStabilization := true, paused := false, urgentStop := false,
    currentSteps := 0, bodies := [], forces := [] }

/-- A symmetric matrix whose first LDL^T pivot D1 = e0 is negative. -/
def nonSPD : Mat3 := ⟨-1, 0, 0, 0, 1, 0, 0, 0, 1⟩

/-- A one-body joint (world anchor at rA = (5,0)) pinning body 0, with the
captured rest error C0 = (5, 0, 0) and default hard stiffness. -/
def cxJD : JointData := ⟨⟨5, 0⟩, ⟨0, 0⟩, ⟨5, 0, 0⟩, 100, 0, none, 0⟩

def cxJoint : Force := baseRows (.joint cxJD)

/-- The (single) force left in the list after stepping `fractureState`. -/
def c5res : Force :=
  ((step rfZero (1 / 60) fractureState).forces).getD 0 dfltForce

/-- The (single) force left in the list after stepping `coneState`. -/
def c6res : Force :=
  ((step rfZero (1 / 60) coneState).forces).getD 0 dfltForce

/-- The effective friction coefficient stored in `c6res`. -/
def c6mu : ℚ :=
  match c6res.kind with
  | .manifold md => md.friction
  | _ => 0

/-- The contact count of `c6res`. -/
def c6contacts : ℕ :=
  match c6res.kind with
  | .manifold md => md.contacts.length
  | _ => 0

/-! ## Invariant vocabulary -/

/-- Indexing a Vec3 like the source indexes a glm.vec3 by row number. -/
def Vec3.idx (v : Vec3) (j : ℕ) : ℚ :=
  if j = 0 then v.x else if j = 1 then v.y else v.z

/-- The `staticBody` flag agrees with `mass === 0`, as the RigidBox
constructor guarantees. -/
def Body.consistent (b : Body) : Prop := b.staticBody = decide (b.mass = 0)

/-- Structural well-formedness of a force's row bounds, satisfied by every
force the source constructs: no row stiffness is -Infinity, every row's
force bounds straddle zero, and a manifold's effective friction is
nonnegative. -/
def GoodF (f : Force) : Prop :=
  (∀ j, f.stiffness j ≠ .ninf) ∧
  (∀ j, Ext.straddle (f.fmin j) (f.fmax j)) ∧
  (∀ md, f.kind = .manifold md → 0 ≤ md.friction)

/-- The penalty cap of row j: min(stiffness_j, PENALTY_MAX). -/
def penCap (f : Force) (j : ℕ) : ℚ := Ext.minQ (f.stiffness j) PENALTY_MAX

/-- The per-row penalty invariant: kappa_j between min(PENALTY_MIN, cap_j)
and cap_j on every live row. -/
def PenInv (f : Force) : Prop :=
  ∀ j < f.rows, min PENALTY_MIN (penCap f j) ≤ f.penalty j ∧ f.penalty j ≤ penCap f j

/-- The per-row dual invariant: lambda_j within [fmin_j, fmax_j] on every
live row. -/
def LamInv (f : Force) : Prop :=
  ∀ j < f.rows, Ext.memClosed (f.fmin j) (f.fmax j) (f.lam j)

/-- The square-root stand-in is nonnegative (true of the real Math.sqrt
on nonnegative arguments, and of ratSqrt everywhere). -/
def SqrtNonneg (rf : RealFuns) : Prop := ∀ q, 0 ≤ rf.sqrt q

/-- The rational stored in a finite Ext value. -/
def finVal : Ext → ℚ
  | .fin q => q
  | _ => 0

/-- The manifold payload of `c6res`. -/
def c6md : ManifoldData :=
  match c6res.kind with
  | .manifold md => md
  | _ => ⟨0, 0, [], 0⟩

/-! ## Theorems -/

theorem ratSqrt_nonneg : SqrtNonneg rfZero := by
  intro q
  show 0 ≤ ratSqrt q
  unfold ratSqrt
  split
  · exact le_refl 0
  · positivity

/-- C2: the 3x3 LDL^T solver has no pivot check: on a matrix whose first
pivot D1 = A[0] is negative (not SPD) it silently returns a solution
vector instead of surfacing a diagnostic or tripping urgent_stop — there
is no failure path anywhere in solveLDLT or at its call site in the
primal block solve. -/
theorem solveLDLT_no_pivot_check :
    nonSPD.e0 ≤ 0 ∧ solveLDLT nonSPD ⟨2, 3, 4⟩ = ⟨-2, 3, 4⟩ := by
  decide

/-- C1: on a scene with post_stabilization enabled and iterations = 1, the
main loop indeed runs iterations + 1 = 2 times, but the alpha handed to
computeConstraints on the final (stabilization) iteration is the
configured alpha 99/100, not 0: `currentAlpha` is assigned `this.alpha`
at the top of every iteration and never reassigned. -/
theorem alpha_trace_code_bug :
    traceState.postStabilization = true ∧ traceState.iterations = 1 ∧
    traceState.alpha = 99 / 100 ∧
    stepAlphas rfZero (1 / 60) traceState = [99 / 100, 99 / 100] ∧
    (99 / 100 : ℚ) ≠ 0 := by
  refine ⟨rfl, rfl, rfl, by decide, by norm_num⟩

/-- C9: a step entered with paused or urgent_stop set is a no-op on the
whole solver state; a latched urgent_stop therefore survives every
subsequent step, and Clear() resets it to false. -/
theorem paused_urgent_noop_latch (rf : RealFuns) (dt : ℚ) (s : State) :
    ((s.paused = true ∨ s.urgentStop = true) → step rf dt s = s) ∧
    (s.urgentStop = true → (step rf dt s).urgentStop = true) ∧
    (Clear s).urgentStop = false := by
  have hnoop : (s.paused = true ∨ s.urgentStop = true) → step rf dt s = s := by
    rintro (hp | hu)
    · unfold step stepT
      cases hu : s.urgentStop <;> simp [hu, hp]
    · unfold step stepT
      simp [hu]
  refine ⟨hnoop, ?_, rfl⟩
  intro hu
  rw [hnoop (Or.inr hu)]
  exact hu

/-- Witness for C9 at a concrete paused state. -/
theorem paused_urgent_noop_latch_w :
    step rfZero (1 / 60) { traceState with paused := true } =
      { traceState with paused := true } :=
  (paused_urgent_noop_latch rfZero (1 / 60) _).1 (Or.inl rfl)

/-- C10: body/force/energy registration is idempotent (a member is never
pushed again) and never creates duplicates. -/
theorem registration_idempotent (bodies forces energies : List ℕ) (b f e : ℕ) :
    (b ∈ bodies → addRigidBox bodies b = bodies) ∧
    (f ∈ forces → addForce forces f = forces) ∧
    (e ∈ energies → addEnergy energies e = energies) ∧
    (bodies.Nodup → (addRigidBox bodies b).Nodup) ∧
    (forces.Nodup → (addForce forces f).Nodup) ∧
    (energies.Nodup → (addEnergy energies e).Nodup) := by
  have key : ∀ (l : List ℕ) (a : ℕ),
      (a ∈ l → (if l.indexOf a = l.length then l ++ [a] else l) = l) ∧
      (l.Nodup → (if l.indexOf a = l.length then l ++ [a] else l).Nodup) := by
    intro l a
    constructor
    · intro hm
      rw [if_neg]
      exact Nat.ne_of_lt (List.indexOf_lt_length.2 hm)
    · intro hnd
      by_cases hm : a ∈ l
      · rw [if_neg (Nat.ne_of_lt (List.indexOf_lt_length.2 hm))]
        exact hnd
      · rw [if_pos (List.indexOf_eq_length.2 hm)]
        rw [← List.concat_eq_append]
        exact hnd.concat hm
  exact ⟨(key bodies b).1, (key forces f).1, (key energies e).1,
    (key bodies b).2, (key forces f).2, (key energies e).2⟩

/-- C3 counterexample: for the resting unit-mass body (velocity and
previous velocity both zero, so the claim's acc_weight is 0), the stored
free-flight prediction is q + g*dt^2 = (0, -109/40000, 0), not the
claim's q + v*dt + acc_weight*g*dt^2 = (0, 0, 0): the source adds the
FULL gravity term to `inertial` and applies the acc_weight-scaled term
only to the advanced position. -/
theorem inertial_accweight_cex :
    jointBodyA.staticBody = false ∧
    accWeight (-981 / 100) (1 / 60) jointBodyA.vel jointBodyA.prevVel = 0 ∧
    (warmstartBody 0 (-981 / 100) (1 / 60) jointBodyA).inertial =
      ⟨0, -109 / 40000, 0⟩ ∧
    Vec3.add jointBodyA.pos (Vec3.add (jointBodyA.vel.scale (1 / 60))
      (Vec3.scale ⟨0, -981 / 100, 0⟩ (0 * ((1 / 60) * (1 / 60))))) = ⟨0, 0, 0⟩ ∧
    (⟨0, -109 / 40000, 0⟩ : Vec3) ≠ ⟨0, 0, 0⟩ := by
  decide

/-- C4 counterexample: on a hard joint row with captured error
C0 = (5,0,0) and unchanged pose (so C(q) = Cn = (5,0,·)), the source
fills C = Cn - C0 * alpha, which at alpha = 1 is 0; the claim's
Taylor-stabilized form C(q) - (1 - alpha) * C0 predicts 5.  The
conventions are inverted: in the code alpha = 0, not alpha = 1, enforces
exact position alignment. -/
theorem hard_row_alpha_convention_cex :
    (cxJoint.stiffness 0).isPInf = true ∧
    (jointCn rfZero [jointBodyA] cxJD).x = 5 ∧
    (jointComputeConstraints rfZero [jointBodyA] cxJoint cxJD 1).C 0 = 0 ∧
    (jointCn rfZero [jointBodyA] cxJD).x - (1 - 1) * cxJD.C0.x = 5 ∧
    (0 : ℚ) ≠ 5 := by
  decide

/-- C5 counterexample: stepping `fractureState` (not paused, not
urgent-stopped) fractures and disables its hard joint during the dual
update; the joint stays in the force list, and after the step its row 0
has penalty 0, which violates the claimed
penalty ∈ [PENALTY_MIN, min(PENALTY_MAX, stiffness)] = [1, 0]. -/
theorem penalty_interval_cex :
    fractureState.paused = false ∧ fractureState.urgentStop = false ∧
    ((step rfZero (1 / 60) fractureState).forces).length = 1 ∧
    (0 : ℕ) < c5res.rows ∧
    c5res.stiffness 0 = .fin 0 ∧ c5res.penalty 0 = 0 ∧
    ¬ (PENALTY_MIN ≤ c5res.penalty 0 ∧ c5res.penalty 0 ≤ penCap c5res 0) := by
  decide

/-- C6 counterexample: stepping `coneState` (a warm sliding contact; both
body frictions are 1, so mu = sqrt(1*1) = 1) ends the step with normal
multiplier lambda[0] = 0 and tangential multiplier lambda[1] = 10 on its
first contact: the Coulomb cone |lambda_t| <= mu * |lambda_n| fails at
the end of the step, because the tangential bounds were refreshed from
the PREVIOUS normal multiplier (-10), not the final one. -/
theorem coulomb_cone_cex :
    coneState.paused = false ∧ coneState.urgentStop = false ∧
    ((step rfZero (1 / 60) coneState).forces).length = 1 ∧
    ratSqrt (floorBody.friction * slideBox.friction) = 1 ∧
    c6mu = 1 ∧ (0 : ℕ) < c6contacts ∧
    c6res.lam 0 = 0 ∧ c6res.lam 1 = 10 ∧
    ¬ (|c6res.lam 1| ≤ c6mu * |c6res.lam 0|) := by
  decide

/-- C7 counterexample: a Joint whose rows were all disabled by an earlier
fracture is REMOVED from the force list by the very next step (its
initialize() returns false because every stiffness is zero, and the
solver splices it out and destroys it) — it does not persist until a
scene reset. -/
theorem fractured_joint_removed_cex :
    fracturedState.paused = false ∧ fracturedState.urgentStop = false ∧
    fracturedState.forces.length = 1 ∧
    (∀ j < 3, fracturedJoint.stiffness j = Ext.fin 0) ∧
    ((step rfZero (1 / 60) fracturedState).forces).length = 0 := by
  decide

/-! ### Helper lemmas: clamping and bounds -/

theorem clamp_memClosed {lo hi : Ext} (h : Ext.straddle lo hi) (x : ℚ) :
    Ext.memClosed lo hi (hi.clampAbove (lo.clampBelow x)) := by
  obtain ⟨h1, h2⟩ := h
  cases lo <;> cases hi <;>
    simp_all [Ext.clampAbove, Ext.clampBelow, Ext.memClosed] <;>
    split_ifs <;> simp_all <;> linarith

theorem memClosed_abs_le {b x : ℚ}
    (h : Ext.memClosed (.fin (-b)) (.fin b) x) : |x| ≤ b := by
  obtain ⟨h1, h2⟩ := h
  exact abs_le.2 ⟨by simpa using h1, h2⟩

/-! ### Helper lemmas: preservation by the constraint kernels -/

theorem cc_arrays (rf : RealFuns) (bodies : List Body) (f : Force) (α : ℚ) :
    (forceComputeConstraints rf bodies f α).lam = f.lam ∧
    (forceComputeConstraints rf bodies f α).penalty = f.penalty ∧
    (forceComputeConstraints rf bodies f α).stiffness = f.stiffness ∧
    (forceComputeConstraints rf bodies f α).fracture = f.fracture ∧
    (forceComputeConstraints rf bodies f α).rows = f.rows := by
  cases hk : f.kind <;>
    simp [forceComputeConstraints, hk, jointComputeConstraints,
      manifoldComputeConstraints, Force.rows]

theorem cd_arrays (rf : RealFuns) (bodies : List Body) (f : Force) (bi : ℕ) :
    (forceComputeDerivatives rf bodies f bi).lam = f.lam ∧
    (forceComputeDerivatives rf bodies f bi).penalty = f.penalty ∧
    (forceComputeDerivatives rf bodies f bi).stiffness = f.stiffness ∧
    (forceComputeDerivatives rf bodies f bi).fracture = f.fracture ∧
    (forceComputeDerivatives rf bodies f bi).fmin = f.fmin ∧
    (forceComputeDerivatives rf bodies f bi).fmax = f.fmax ∧
    (forceComputeDerivatives rf bodies f bi).kind = f.kind := by
  cases hk : f.kind
  · simp only [forceComputeDerivatives, hk, jointComputeDerivatives]
    split_ifs <;> simp [hk]
  · simp [forceComputeDerivatives, hk, manifoldComputeDerivatives]

theorem cd_rows (rf : RealFuns) (bodies : List Body) (f : Force) (bi : ℕ) :
    (forceComputeDerivatives rf bodies f bi).rows = f.rows := by
  unfold Force.rows
  rw [(cd_arrays rf bodies f bi).2.2.2.2.2.2]

theorem cc_good (rf : RealFuns) (bodies : List Body) (f : Force) (α : ℚ)
    (h : GoodF f) : GoodF (forceComputeConstraints rf bodies f α) := by
  obtain ⟨hs, hb, hμ⟩ := h
  cases hk : f.kind with
  | joint jd =>
    refine ⟨?_, ?_, ?_⟩ <;>
      simp_all [forceComputeConstraints, hk, jointComputeConstraints]
  | manifold md =>
    have hμ0 : 0 ≤ md.friction := hμ md hk
    refine ⟨?_, ?_, ?_⟩
    · simpa [forceComputeConstraints, hk, manifoldComputeConstraints] using hs
    · intro j
      simp only [forceComputeConstraints, hk, manifoldComputeConstraints]
      by_cases hj : j < 2 * md.contacts.length ∧ j % 2 = 1
      · have hbd : 0 ≤ |f.lam (j - 1)| * md.friction :=
          mul_nonneg (abs_nonneg _) hμ0
        rw [if_pos hj, if_pos hj]
        exact ⟨neg_nonpos.mpr hbd, hbd⟩
      · simpa [hj] using hb j
    · intro md2 hk2
      simp only [forceComputeConstraints, hk, manifoldComputeConstraints] at hk2
      cases hk2
      simpa using hμ0

theorem cd_good (rf : RealFuns) (bodies : List Body) (f : Force) (bi : ℕ)
    (h : GoodF f) : GoodF (forceComputeDerivatives rf bodies f bi) := by
  obtain ⟨h1, h2, h3, h4, h5, h6, h7⟩ := cd_arrays rf bodies f bi
  obtain ⟨hs, hb, hμ⟩ := h
  exact ⟨fun j => by rw [h3]; exact hs j,
         fun j => by rw [h5, h6]; exact hb j,
         fun md hk => hμ md (by rwa [h7] at hk)⟩

/-! ### Helper lemmas: the dual row update -/

theorem lamUpd_struct (f : Force) (j : ℕ) :
    (dualLamUpdate f j).fmin = f.fmin ∧ (dualLamUpdate f j).fmax = f.fmax ∧
    (dualLamUpdate f j).kind = f.kind ∧ (dualLamUpdate f j).penalty = f.penalty ∧
    (dualLamUpdate f j).stiffness = f.stiffness ∧
    (dualLamUpdate f j).fracture = f.fracture ∧ (dualLamUpdate f j).C = f.C := by
  unfold dualLamUpdate
  exact ⟨rfl, rfl, rfl, rfl, rfl, rfl, rfl⟩

theorem maybeDisable_struct (f : Force) (j : ℕ) :
    (dualMaybeDisable f j).fmin = f.fmin ∧ (dualMaybeDisable f j).fmax = f.fmax ∧
    (dualMaybeDisable f j).kind = f.kind ∧
    (dualMaybeDisable f j).fracture = f.fracture ∧
    (dualMaybeDisable f j).C = f.C := by
  unfold dualMaybeDisable Force.disable
  split_ifs <;> exact ⟨rfl, rfl, rfl, rfl, rfl⟩

theorem maybeGrow_struct (β : ℚ) (f : Force) (j : ℕ) :
    (dualMaybeGrow β f j).fmin = f.fmin ∧ (dualMaybeGrow β f j).fmax = f.fmax ∧
    (dualMaybeGrow β f j).kind = f.kind ∧
    (dualMaybeGrow β f j).fracture = f.fracture ∧
    (dualMaybeGrow β f j).C = f.C ∧ (dualMaybeGrow β f j).lam = f.lam ∧
    (dualMaybeGrow β f j).stiffness = f.stiffness := by
  unfold dualMaybeGrow
  split_ifs <;> exact ⟨rfl, rfl, rfl, rfl, rfl, rfl, rfl⟩

theorem dualRow_struct (β : ℚ) (f : Force) (j : ℕ) :
    (dualRowStep β f j).fmin = f.fmin ∧ (dualRowStep β f j).fmax = f.fmax ∧
    (dualRowStep β f j).kind = f.kind ∧
    (dualRowStep β f j).fracture = f.fracture := by
  unfold dualRowStep
  obtain ⟨g1, g2, g3, g4, _⟩ := maybeGrow_struct β (dualMaybeDisable (dualLamUpdate f j) j) j
  obtain ⟨d1, d2, d3, d4, _⟩ := maybeDisable_struct (dualLamUpdate f j) j
  obtain ⟨l1, l2, l3, _, _, l6, _⟩ := lamUpd_struct f j
  exact ⟨by rw [g1, d1, l1], by rw [g2, d2, l2], by rw [g3, d3, l3],
    by rw [g4, d4, l6]⟩

theorem rows_of_kind_eq {f g : Force} (h : g.kind = f.kind) : g.rows = f.rows := by
  unfold Force.rows
  rw [h]

theorem dualRow_rows (β : ℚ) (f : Force) (j : ℕ) :
    (dualRowStep β f j).rows = f.rows :=
  rows_of_kind_eq (dualRow_struct β f j).2.2.1

theorem goodf_of_fields {f g : Force} (hst : ∀ k, g.stiffness k = f.stiffness k ∨ g.stiffness k = .fin 0)
    (hmin : g.fmin = f.fmin) (hmax : g.fmax = f.fmax) (hk : g.kind = f.kind)
    (h : GoodF f) : GoodF g := by
  obtain ⟨hs, hb, hμ⟩ := h
  refine ⟨fun k => ?_, fun k => by rw [hmin, hmax]; exact hb k,
    fun md hkm => hμ md (by rwa [hk] at hkm)⟩
  rcases hst k with he | he <;> rw [he]
  · exact hs k
  · simp

theorem disable_stiffness (f : Force) (k : ℕ) :
    f.disable.stiffness k = f.stiffness k ∨ f.disable.stiffness k = .fin 0 := by
  unfold Force.disable
  by_cases h : k < 4 <;> simp [h]

theorem dualRow_good (β : ℚ) (f : Force) (j : ℕ) (h : GoodF f) :
    GoodF (dualRowStep β f j) := by
  obtain ⟨e1, e2, e3, _⟩ := dualRow_struct β f j
  refine goodf_of_fields ?_ e1 e2 e3 h
  intro k
  unfold dualRowStep
  rw [(maybeGrow_struct β _ j).2.2.2.2.2.2]
  unfold dualMaybeDisable
  split_ifs with hd
  · rcases disable_stiffness (dualLamUpdate f j) k with he | he <;>
      rw [he] <;> simp [(lamUpd_struct f j).2.2.2.2.1]
  · rw [(lamUpd_struct f j).2.2.2.2.1]
    left
    rfl

theorem penInv_transport {f g : Force} (hpen : g.penalty = f.penalty)
    (hst : g.stiffness = f.stiffness) (hrows : g.rows = f.rows)
    (h : PenInv f) : PenInv g := by
  intro j hj
  rw [hrows] at hj
  unfold penCap
  rw [hpen, hst]
  exact h j hj

theorem zero_le_PMAX : (0 : ℚ) ≤ PENALTY_MAX := by
  unfold PENALTY_MAX
  norm_num

theorem maybeDisable_penInv (f : Force) (j : ℕ) (hr : f.rows ≤ 4)
    (hp : PenInv f) : PenInv (dualMaybeDisable f j) := by
  unfold dualMaybeDisable
  split_ifs with hd
  · intro k hk
    have hk4 : k < 4 := by
      have := rows_of_kind_eq (f := f) (g := f.disable) rfl
      omega
    unfold penCap Force.disable
    simp only [if_pos hk4, Ext.minQ]
    exact ⟨le_trans (min_le_right _ _) (min_le_right _ _),
      le_min zero_le_PMAX (le_refl 0)⟩
  · exact hp

theorem maybeGrow_penInv (β : ℚ) (f : Force) (j : ℕ) (hβ : 0 ≤ β)
    (hj : j < f.rows) (hp : PenInv f) : PenInv (dualMaybeGrow β f j) := by
  have hβC : 0 ≤ β * |f.C j| := mul_nonneg hβ (abs_nonneg _)
  unfold dualMaybeGrow
  split_ifs with hgrow
  · intro k hk
    have hkr : k < f.rows := hk
    have hpk := hp k hkr
    unfold penCap at hpk ⊢
    simp only [upd]
    by_cases hkj : k = j
    · subst hkj
      have hpj := hp k hkr
      unfold penCap at hpj
      simp only [if_pos rfl]
      exact ⟨le_min (le_trans hpj.1 (by linarith)) (min_le_right _ _),
        min_le_right _ _⟩
    · simp only [if_neg hkj]
      exact hpk
  · exact hp

theorem dualRow_penInv (β : ℚ) (f : Force) (j : ℕ) (hβ : 0 ≤ β)
    (hr : f.rows ≤ 4) (hp : PenInv f) : PenInv (dualRowStep β f j) := by
  unfold dualRowStep
  have h1 : PenInv (dualLamUpdate f j) := by
    obtain ⟨_, _, l3, l4, l5, _, _⟩ := lamUpd_struct f j
    exact penInv_transport l4 l5 (rows_of_kind_eq l3) hp
  have hr1 : (dualLamUpdate f j).rows ≤ 4 := by
    rw [rows_of_kind_eq (lamUpd_struct f j).2.2.1]
    exact hr
  have h2 : PenInv (dualMaybeDisable (dualLamUpdate f j) j) :=
    maybeDisable_penInv _ j hr1 h1
  have hj4 : True := trivial
  by_cases hjr : j < (dualMaybeDisable (dualLamUpdate f j) j).rows
  · exact maybeGrow_penInv β _ j hβ hjr h2
  · -- j outside the live rows: the growth write at j cannot affect rows < rows
    intro k hk
    have hrows : (dualMaybeGrow β (dualMaybeDisable (dualLamUpdate f j) j) j).rows
        = (dualMaybeDisable (dualLamUpdate f j) j).rows :=
      rows_of_kind_eq (maybeGrow_struct β _ j).2.2.1
    rw [hrows] at hk
    have hpk := h2 k hk
    have hkj : k ≠ j := by omega
    unfold dualMaybeGrow
    split_ifs with hgrow
    · unfold penCap at hpk ⊢
      simp only [upd, if_neg hkj]
      exact hpk
    · exact hpk

theorem dualRow_lamInv (β : ℚ) (f : Force) (j : ℕ) (hg : GoodF f) (k : ℕ)
    (h : k = j ∨ Ext.memClosed (f.fmin k) (f.fmax k) (f.lam k)) :
    Ext.memClosed ((dualRowStep β f j).fmin k) ((dualRowStep β f j).fmax k)
      ((dualRowStep β f j).lam k) := by
  obtain ⟨e1, e2, _, _⟩ := dualRow_struct β f j
  rw [e1, e2]
  unfold dualRowStep
  rw [congrFun (maybeGrow_struct β _ j).2.2.2.2.2.1 k]
  have hclamp : Ext.memClosed (f.fmin j) (f.fmax j) ((dualLamUpdate f j).lam j) := by
    unfold dualLamUpdate
    simp only [upd, if_pos rfl]
    exact clamp_memClosed (hg.2.1 j) _
  have hlam1 : ∀ m, m ≠ j → (dualLamUpdate f j).lam m = f.lam m := by
    intro m hm
    unfold dualLamUpdate
    simp only [upd, if_neg hm]
  unfold dualMaybeDisable
  split_ifs with hd
  · unfold Force.disable
    simp only []
    by_cases hk4 : k < 4
    · simp only [if_pos hk4]
      exact hg.2.1 k
    · simp only [if_neg hk4]
      by_cases hkj : k = j
      · subst hkj
        exact hclamp
      · rw [hlam1 k hkj]
        rcases h with h | h
        · exact absurd h hkj
        · exact h
  · by_cases hkj : k = j
    · subst hkj
      exact hclamp
    · rw [hlam1 k hkj]
      rcases h with h | h
      · exact absurd h hkj
      · exact h

theorem foldl_inv {α β : Type} (g : α → β → α) (P : α → Prop)
    (h : ∀ a b, P a → P (g a b)) :
    ∀ (l : List β) (a : α), P a → P (l.foldl g a) := by
  intro l
  induction l with
  | nil => exact fun a ha => ha
  | cons x xs ih => exact fun a ha => ih (g a x) (h a x ha)

theorem foldl_range_succ {α : Type} (g : α → ℕ → α) (a : α) (n : ℕ) :
    (List.range (n + 1)).foldl g a = g ((List.range n).foldl g a) n := by
  rw [List.range_succ, List.foldl_append]
  rfl

/-- The bundled invariant carried through the dual row loop. -/
theorem dualRows_inv (β : ℚ) (hβ : 0 ≤ β) (m : ℕ) (f : Force) (hg : GoodF f)
    (hr : f.rows ≤ 4) (hp : PenInv f) :
    GoodF ((List.range m).foldl (dualRowStep β) f) ∧
    PenInv ((List.range m).foldl (dualRowStep β) f) ∧
    ((List.range m).foldl (dualRowStep β) f).kind = f.kind ∧
    ((List.range m).foldl (dualRowStep β) f).fmin = f.fmin ∧
    ((List.range m).foldl (dualRowStep β) f).fmax = f.fmax ∧
    (∀ k < m, Ext.memClosed (f.fmin k) (f.fmax k)
      (((List.range m).foldl (dualRowStep β) f).lam k)) := by
  induction m with
  | zero => exact ⟨hg, hp, rfl, rfl, rfl, by omega⟩
  | succ n ih =>
    obtain ⟨ig, ip, ik, imin, imax, ilam⟩ := ih
    set gm := (List.range n).foldl (dualRowStep β) f with hgm
    have hrows : gm.rows = f.rows := rows_of_kind_eq ik
    have hstep := foldl_range_succ (dualRowStep β) f n
    rw [hstep]
    obtain ⟨s1, s2, s3, _⟩ := dualRow_struct β gm n
    refine ⟨dualRow_good β gm n ig,
      dualRow_penInv β gm n hβ (by omega) ip,
      by rw [s3, ik],
      by rw [s1, imin],
      by rw [s2, imax], ?_⟩
    intro k hk
    have hmem := dualRow_lamInv β gm n ig k ?_
    · rwa [s1, s2, imin, imax] at hmem
    · by_cases hkn : k = n
      · exact Or.inl hkn
      · refine Or.inr ?_
        rw [imin, imax]
        exact ilam k (by omega)

/-- Invariants established by one force's dual update: GoodF and the
penalty interval are preserved, the rows are unchanged, and every live
row's lambda ends inside its (current) bounds. -/
theorem dualForce_inv (rf : RealFuns) (bodies : List Body) (α β : ℚ)
    (f : Force) (hβ : 0 ≤ β) (hg : GoodF f) (hr : f.rows ≤ 4) (hp : PenInv f) :
    GoodF (dualForce rf bodies α β f) ∧ PenInv (dualForce rf bodies α β f) ∧
    (dualForce rf bodies α β f).rows = f.rows ∧
    LamInv (dualForce rf bodies α β f) := by
  unfold dualForce
  obtain ⟨a1, a2, a3, _, a5⟩ := cc_arrays rf bodies f α
  have hg1 : GoodF (forceComputeConstraints rf bodies f α) := cc_good rf bodies f α hg
  have hp1 : PenInv (forceComputeConstraints rf bodies f α) :=
    penInv_transport a2 a3 a5 hp
  have hr1 : (forceComputeConstraints rf bodies f α).rows ≤ 4 := by rw [a5]; exact hr
  obtain ⟨bg, bp, bk, bmin, bmax, blam⟩ :=
    dualRows_inv β hβ (forceComputeConstraints rf bodies f α).rows
      (forceComputeConstraints rf bodies f α) hg1 hr1 hp1
  refine ⟨bg, bp, by rw [rows_of_kind_eq bk, a5], ?_⟩
  intro k hk
  rw [rows_of_kind_eq bk] at hk
  have := blam k hk
  rwa [← bmin, ← bmax] at this

/-! ### Helper lemmas: warm-start decay, initialization, broadphase -/

theorem warmDecay_struct (ps : Bool) (α γ : ℚ) (f : Force) :
    (warmDecay ps α γ f).kind = f.kind ∧ (warmDecay ps α γ f).fmin = f.fmin ∧
    (warmDecay ps α γ f).fmax = f.fmax ∧
    (warmDecay ps α γ f).stiffness = f.stiffness := by
  unfold warmDecay
  exact ⟨rfl, rfl, rfl, rfl⟩

theorem warmDecay_good (ps : Bool) (α γ : ℚ) (f : Force) (h : GoodF f) :
    GoodF (warmDecay ps α γ f) := by
  obtain ⟨w1, w2, w3, w4⟩ := warmDecay_struct ps α γ f
  exact goodf_of_fields (fun k => Or.inl (congrFun w4 k)) w2 w3 w1 h

theorem one_le_clampP (c : ℚ) :
    PENALTY_MIN ≤ min (max c PENALTY_MIN) PENALTY_MAX ∧
      min (max c PENALTY_MIN) PENALTY_MAX ≤ PENALTY_MAX :=
  ⟨le_min (le_max_right _ _) (by unfold PENALTY_MIN PENALTY_MAX; norm_num),
   min_le_right _ _⟩

theorem warmDecay_penInv (ps : Bool) (α γ : ℚ) (f : Force)
    (h : ∀ k, f.stiffness k ≠ .ninf) : PenInv (warmDecay ps α γ f) := by
  intro j hj
  have hrows : (warmDecay ps α γ f).rows = f.rows :=
    rows_of_kind_eq (warmDecay_struct ps α γ f).1
  rw [hrows] at hj
  unfold penCap
  rw [(warmDecay_struct ps α γ f).2.2.2]
  show min PENALTY_MIN (Ext.minQ (f.stiffness j) PENALTY_MAX) ≤
      (warmDecay ps α γ f).penalty j ∧ _
  unfold warmDecay
  simp only [if_pos hj]
  obtain ⟨hc1, hc2⟩ := one_le_clampP (f.penalty j * γ)
  set c := min (max (f.penalty j * γ) PENALTY_MIN) PENALTY_MAX with hc
  cases hst : f.stiffness j with
  | fin s =>
    simp only [Ext.minQ]
    constructor
    · refine le_min (le_trans (min_le_left _ _) hc1) ?_
      exact le_trans (min_le_right _ _) (min_le_right _ _)
    · exact min_le_min hc2 (le_refl s)
  | pinf =>
    simp only [Ext.minQ]
    exact ⟨le_trans (min_le_left _ _) hc1, hc2⟩
  | ninf => exact absurd hst (h j)

theorem init_struct (rf : RealFuns) (bodies : List Body) (f : Force) :
    (forceInitialize rf bodies f).1.stiffness = f.stiffness ∧
    (forceInitialize rf bodies f).1.fmin = f.fmin ∧
    (forceInitialize rf bodies f).1.fmax = f.fmax := by
  cases hk : f.kind <;>
    simp [forceInitialize, hk, jointInitialize, manifoldInitialize]

theorem collide_len (rf : RealFuns) (bA bB : Body) :
    (collide rf bA bB).length ≤ 2 := by
  unfold collide
  simp [List.length_take]

theorem init_rows (rf : RealFuns) (bodies : List Body) (f : Force) :
    (forceInitialize rf bodies f).1.rows ≤ 4 := by
  cases hk : f.kind with
  | joint jd => simp [forceInitialize, hk, jointInitialize, Force.rows]
  | manifold md =>
    simp only [forceInitialize, hk, manifoldInitialize, Force.rows,
      List.length_map]
    have := collide_len rf (getBody bodies md.bodyA) (getBody bodies md.bodyB)
    omega

theorem init_good (rf : RealFuns) (bodies : List Body) (f : Force)
    (hsq : SqrtNonneg rf) (h : GoodF f) : GoodF (forceInitialize rf bodies f).1 := by
  obtain ⟨hs, hb, _⟩ := h
  obtain ⟨i1, i2, i3⟩ := init_struct rf bodies f
  refine ⟨fun k => by rw [i1]; exact hs k, fun k => by rw [i2, i3]; exact hb k, ?_⟩
  intro md2 hk2
  cases hk : f.kind with
  | joint jd =>
    simp only [forceInitialize, hk, jointInitialize] at hk2
    cases hk2
  | manifold md =>
    simp only [forceInitialize, hk, manifoldInitialize] at hk2
    cases hk2
    exact hsq _

theorem initForces_inv (rf : RealFuns) (s : State) (hsq : SqrtNonneg rf)
    (h : ∀ f ∈ s.forces, GoodF f) :
    ∀ g ∈ (initForces rf s).forces, GoodF g ∧ PenInv g ∧ g.rows ≤ 4 := by
  unfold initForces
  simp only []
  have main : ∀ (l : List Force) (acc : List Force),
      (∀ f ∈ l, GoodF f) →
      (∀ g ∈ acc, GoodF g ∧ PenInv g ∧ g.rows ≤ 4) →
      ∀ g ∈ l.foldl (fun acc f =>
        let r := forceInitialize rf s.bodies f
        if r.2 then acc ++ [warmDecay s.postStabilization s.alpha s.gamma r.1]
        else acc) acc, GoodF g ∧ PenInv g ∧ g.rows ≤ 4 := by
    intro l
    induction l with
    | nil => exact fun acc _ hacc => hacc
    | cons x xs ih =>
      intro acc hl hacc
      refine ih _ (fun f hf => hl f (List.mem_cons_of_mem x hf)) ?_
      have hx : GoodF x := hl x (List.mem_cons_self x xs)
      simp only []
      split_ifs with hu
      · intro g hg
        rcases List.mem_append.1 hg with hg | hg
        · exact hacc g hg
        · have hgx := List.mem_singleton.1 hg
          subst hgx
          have hgood : GoodF (forceInitialize rf s.bodies x).1 :=
            init_good rf s.bodies x hsq hx
          refine ⟨warmDecay_good _ _ _ _ hgood, ?_, ?_⟩
          · refine warmDecay_penInv _ _ _ _ ?_
            intro k
            rw [(init_struct rf s.bodies x).1]
            exact hx.1 k
          · rw [rows_of_kind_eq (warmDecay_struct _ _ _ _).1]
            exact init_rows rf s.bodies x
      · exact hacc
  exact main s.forces [] h (by simp)

theorem dfltForce_good : GoodF dfltForce := by
  refine ⟨fun k => by simp [dfltForce, baseRows], fun k => ?_, fun md hk => by
    simp [dfltForce, baseRows] at hk⟩
  simp [dfltForce, baseRows, Ext.straddle, Ext.memClosed]

theorem newManifold_good (i j : ℕ) : GoodF (newManifold i j) := by
  refine ⟨fun k => by simp only [newManifold, baseRows]; decide, fun k => ?_,
    fun md hk => ?_⟩
  · simp only [newManifold, baseRows]
    split_ifs <;> exact ⟨trivial, by norm_num⟩
  · simp only [newManifold, baseRows] at hk
    cases hk
    simp

theorem broadphase_good (s : State) (h : ∀ f ∈ s.forces, GoodF f) :
    ∀ f ∈ (broadphase s).forces, GoodF f := by
  unfold broadphase
  simp only []
  refine foldl_inv _ (fun fs => ∀ f ∈ fs, GoodF f) ?_ _ _ h
  intro fs i hfs
  refine foldl_inv _ (fun fs => ∀ f ∈ fs, GoodF f) ?_ _ _ hfs
  intro fs2 j hfs2
  split_ifs with h1 h2
  · exact hfs2
  · intro f hf
    rcases List.mem_append.1 hf with hf | hf
    · exact hfs2 f hf
    · rw [List.mem_singleton.1 hf]
      exact newManifold_good i j
  · exact hfs2

/-! ### Helper lemmas: primal pass, iterations, and step assembly -/

/-- The row invariants threaded through the whole step. -/
def RowInvs (f : Force) : Prop := GoodF f ∧ PenInv f ∧ f.rows ≤ 4

theorem foldl_inv_mem {α β : Type} (g : α → β → α) (P : α → Prop) :
    ∀ (l : List β), (∀ a b, b ∈ l → P a → P (g a b)) →
      ∀ a, P a → P (l.foldl g a) := by
  intro l
  induction l with
  | nil => exact fun _ a ha => ha
  | cons x xs ih =>
    intro h a ha
    exact ih (fun a b hb => h a b (List.mem_cons_of_mem x hb)) (g a x)
      (h a x (List.mem_cons_self x xs) ha)

theorem ccd_rowInvs (rf : RealFuns) (bodies : List Body) (α : ℚ) (bi : ℕ)
    (f : Force) (h : RowInvs f) :
    RowInvs (forceComputeDerivatives rf bodies (forceComputeConstraints rf bodies f α) bi) := by
  obtain ⟨hg, hp, hr⟩ := h
  set f1 := forceComputeConstraints rf bodies f α with hf1
  obtain ⟨a1, a2, a3, a4, a5⟩ := cc_arrays rf bodies f α
  obtain ⟨b1, b2, b3, b4, _, _, b7⟩ := cd_arrays rf bodies f1 bi
  refine ⟨cd_good rf bodies f1 bi (cc_good rf bodies f α hg), ?_, ?_⟩
  · refine penInv_transport (f := f) ?_ ?_ ?_ hp
    · rw [b2, a2]
    · rw [b3, a3]
    · rw [cd_rows, a5]
  · rw [cd_rows, a5]
    exact hr

theorem primal_pres (rf : RealFuns) (dt α : ℚ) (st : List Body × List Force)
    (bi : ℕ) (h : ∀ f ∈ st.2, RowInvs f) :
    ∀ f ∈ (primalBody rf dt α st bi).2, RowInvs f := by
  have key : ∀ (n : ℕ) (acc : List Force × (Mat3 × Vec3)) (fi : ℕ),
      fi ∈ List.range n →
      (acc.1.length = n ∧ ∀ g ∈ acc.1, RowInvs g) →
      ((primalForceStep rf st.1 α bi acc fi).1.length = n ∧
       ∀ g ∈ (primalForceStep rf st.1 α bi acc fi).1, RowInvs g) := by
    intro n acc fi hfi ⟨hlen, hmem⟩
    unfold primalForceStep
    dsimp only
    split_ifs with ht
    · have hfi2 : fi < acc.1.length := by
        rw [hlen]
        exact List.mem_range.1 hfi
      have hget : acc.1.getD fi dfltForce ∈ acc.1 := by
        rw [List.getD_eq_getElem acc.1 dfltForce hfi2]
        exact List.getElem_mem hfi2
      constructor
      · rw [List.length_set]
        exact hlen
      · intro g hg
        rcases List.mem_or_eq_of_mem_set hg with hg | hg
        · exact hmem g hg
        · subst hg
          exact ccd_rowInvs rf st.1 α bi _ (hmem _ hget)
    · exact ⟨hlen, hmem⟩
  unfold primalBody
  dsimp only
  split_ifs with hs
  · exact h
  · intro f hf
    have res := foldl_inv_mem (primalForceStep rf st.1 α bi)
      (fun (acc : List Force × (Mat3 × Vec3)) =>
        acc.1.length = st.2.length ∧ ∀ g ∈ acc.1, RowInvs g)
      (List.range st.2.length)
      (fun acc fi hfi hacc => key st.2.length acc fi hfi hacc)
      (st.2, ((⟨(getBody st.1 bi).mass, 0, 0, 0, (getBody st.1 bi).mass, 0, 0, 0,
        (getBody st.1 bi).moment⟩ : Mat3).smul (1 / (dt * dt)),
        ((⟨(getBody st.1 bi).mass, 0, 0, 0, (getBody st.1 bi).mass, 0, 0, 0,
          (getBody st.1 bi).moment⟩ : Mat3).smul (1 / (dt * dt))).apply
          (Vec3.sub (getBody st.1 bi).pos (getBody st.1 bi).inertial)))
      ⟨rfl, h⟩
    exact res.2 f hf

theorem dualForce_rowInvs (rf : RealFuns) (bodies : List Body) (α β : ℚ)
    (f : Force) (hβ : 0 ≤ β) (h : RowInvs f) :
    RowInvs (dualForce rf bodies α β f) := by
  obtain ⟨hg, hp, hr⟩ := h
  obtain ⟨dg, dp, drows, _⟩ := dualForce_inv rf bodies α β f hβ hg hr hp
  exact ⟨dg, dp, by rw [drows]; exact hr⟩

theorem primalAll_pres (rf : RealFuns) (dt α : ℚ) (bodies : List Body)
    (forces : List Force) (n : ℕ) (h : ∀ f ∈ forces, RowInvs f) :
    ∀ f ∈ ((List.range n).foldl (primalBody rf dt α) (bodies, forces)).2,
      RowInvs f := by
  refine foldl_inv (primalBody rf dt α)
    (fun (st : List Body × List Force) => ∀ f ∈ st.2, RowInvs f) ?_ _ _ h
  intro st bi
  exact primal_pres rf dt α st bi

theorem mainIter_forces_eq (rf : RealFuns) (dt α β : ℚ) (iterations : ℕ)
    (st : LoopSt) (iter : ℕ) (h : iter < iterations) :
    (mainIter rf dt α β iterations st iter).forces =
      ((List.range st.bodies.length).foldl (primalBody rf dt α)
        (st.bodies, st.forces)).2.map
        (dualForce rf ((List.range st.bodies.length).foldl (primalBody rf dt α)
          (st.bodies, st.forces)).1 α β) := by
  simp [mainIter, h]

theorem mainIter_pres (rf : RealFuns) (dt α β : ℚ) (iterations : ℕ)
    (st : LoopSt) (iter : ℕ) (hβ : 0 ≤ β)
    (h : ∀ f ∈ st.forces, RowInvs f) :
    ∀ f ∈ (mainIter rf dt α β iterations st iter).forces, RowInvs f := by
  have hprim := primalAll_pres rf dt α st.bodies st.forces st.bodies.length h
  unfold mainIter
  simp only []
  split_ifs with h1
  · intro f hf
    obtain ⟨g, hg, he⟩ := List.mem_map.1 hf
    subst he
    exact dualForce_rowInvs rf _ α β g hβ (hprim g hg)
  · exact hprim

theorem step_forces_unfold (rf : RealFuns) (dt : ℚ) (s : State)
    (hp : s.paused = false) (hu : s.urgentStop = false) :
    (step rf dt s).forces =
      ((List.range (s.iterations + if s.postStabilization then 1 else 0)).foldl
        (mainIter rf s.dt s.alpha s.beta s.iterations)
        { bodies := (initForces rf (broadphase s)).bodies.map
            (warmstartBody s.gravX s.gravY s.dt)
          forces := (initForces rf (broadphase s)).forces
          trace := [] }).forces := by
  have hms : ¬ (MAX_STEPS > 0 ∧ s.currentSteps > MAX_STEPS) := by
    rintro ⟨h1, _⟩
    unfold MAX_STEPS at h1
    omega
  unfold step stepT
  rw [hu, hp]
  simp only [Bool.false_eq_true, if_false, if_neg hms]

/-- C5 (amended): after any non-skipped step with beta >= 0, at least one
configured iteration and well-formed input forces, every live force row
satisfies penalty_j ∈ [min(PENALTY_MIN, cap_j), cap_j] with
cap_j = min(PENALTY_MAX, stiffness_j) — the lower end collapses below
PENALTY_MIN exactly for rows whose stiffness was zeroed by disable() —
and, when post-stabilization is off, lambda_j lies within the row's
stored bounds [fmin_j, fmax_j].  (With post-stabilization the final
stabilization pass refreshes manifold friction bounds once more after the
last dual clamp, so the stored-bounds part does not survive it.) -/
theorem step_row_invariants (rf : RealFuns) (dt : ℚ) (s : State)
    (hsq : SqrtNonneg rf) (hp : s.paused = false) (hu : s.urgentStop = false)
    (hβ : 0 ≤ s.beta) (hit : 1 ≤ s.iterations)
    (hwf : ∀ f ∈ s.forces, GoodF f) :
    ∀ f ∈ (step rf dt s).forces, ∀ j < f.rows,
      (min PENALTY_MIN (penCap f j) ≤ f.penalty j ∧ f.penalty j ≤ penCap f j) ∧
      (s.postStabilization = false →
        Ext.memClosed (f.fmin j) (f.fmax j) (f.lam j)) := by
  intro f hf j hj
  rw [step_forces_unfold rf dt s hp hu] at hf
  have hinv0 : ∀ g ∈ (initForces rf (broadphase s)).forces, RowInvs g := by
    intro g hg
    obtain ⟨h1, h2, h3⟩ :=
      initForces_inv rf (broadphase s) hsq (broadphase_good s hwf) g hg
    exact ⟨h1, h2, h3⟩
  have hpres : ∀ (l : List ℕ) (st : LoopSt), (∀ g ∈ st.forces, RowInvs g) →
      ∀ g ∈ (l.foldl (mainIter rf s.dt s.alpha s.beta s.iterations) st).forces,
        RowInvs g := by
    intro l st h
    exact foldl_inv _ (fun st => ∀ g ∈ st.forces, RowInvs g)
      (fun a b ha => mainIter_pres rf s.dt s.alpha s.beta s.iterations a b hβ ha)
      l st h
  by_cases hps : s.postStabilization = false
  · have hiters : (if s.postStabilization then 1 else 0) = 0 := by rw [hps]; rfl
    rw [hiters, Nat.add_zero] at hf
    obtain ⟨n, hn⟩ : ∃ n, s.iterations = n + 1 := ⟨s.iterations - 1, by omega⟩
    rw [hn] at hf hpres
    rw [foldl_range_succ] at hf
    set stn := (List.range n).foldl
      (mainIter rf s.dt s.alpha s.beta (n + 1))
      { bodies := (initForces rf (broadphase s)).bodies.map
          (warmstartBody s.gravX s.gravY s.dt)
        forces := (initForces rf (broadphase s)).forces
        trace := [] } with hstn
    have hQn : ∀ g ∈ stn.forces, RowInvs g := hpres _ _ hinv0
    rw [mainIter_forces_eq rf s.dt s.alpha s.beta (n + 1) stn n
      (by omega)] at hf
    obtain ⟨g, hg, he⟩ := List.mem_map.1 hf
    have hRg : RowInvs g :=
      primalAll_pres rf s.dt s.alpha stn.bodies stn.forces stn.bodies.length
        hQn g hg
    obtain ⟨dg, dp, drows, dlam⟩ := dualForce_inv rf _ s.alpha s.beta g hβ
      hRg.1 hRg.2.2 hRg.2.1
    subst he
    exact ⟨dp j hj, fun _ => dlam j hj⟩
  · have hRf : RowInvs f := hpres _ _ hinv0 f hf
    exact ⟨hRf.2.1 j hj, fun hcontra => absurd hcontra hps⟩

/-- Witness for C5 (amended) on the fracturing-joint scene, at row 0 of the
disabled joint. -/
theorem step_row_invariants_w :
    (min PENALTY_MIN (penCap c5res 0) ≤ c5res.penalty 0 ∧
      c5res.penalty 0 ≤ penCap c5res 0) ∧
    (fractureState.postStabilization = false →
      Ext.memClosed (c5res.fmin 0) (c5res.fmax 0) (c5res.lam 0)) := by
  have hlen : 0 < ((step rfZero (1 / 60) fractureState).forces).length := by decide
  have hmem : c5res ∈ (step rfZero (1 / 60) fractureState).forces := by
    unfold c5res
    rw [List.getD_eq_getElem _ _ hlen]
    exact List.getElem_mem hlen
  have hwf : ∀ f ∈ fractureState.forces, GoodF f := by
    intro f hf
    rcases List.mem_singleton.1 hf with rfl
    refine ⟨fun j => ?_, fun j => ?_, fun md hk => ?_⟩
    · simp only [fragileJoint, newJoint, baseRows]
      split_ifs <;> decide
    · simp only [fragileJoint, newJoint, baseRows]
      split_ifs <;> exact ⟨by norm_num, by norm_num⟩
    · simp only [fragileJoint, newJoint, baseRows] at hk
      cases hk
  exact step_row_invariants rfZero (1 / 60) fractureState ratSqrt_nonneg rfl rfl
    (by decide) (by decide) hwf c5res hmem 0 (by decide)

/-- The refreshed tangential bounds of Manifold.computeConstraints. -/
theorem mcc_bounds (bodies : List Body) (f : Force) (md : ManifoldData)
    (α : ℚ) (k : ℕ) (h1 : k < 2 * md.contacts.length) (h2 : k % 2 = 1) :
    (manifoldComputeConstraints bodies f md α).fmax k =
      .fin (|f.lam (k - 1)| * md.friction) ∧
    (manifoldComputeConstraints bodies f md α).fmin k =
      .fin (-(|f.lam (k - 1)| * md.friction)) := by
  unfold manifoldComputeConstraints
  dsimp only
  rw [if_pos ⟨h1, h2⟩, if_pos ⟨h1, h2⟩]
  exact ⟨rfl, rfl⟩

theorem cc_kind_joint (rf : RealFuns) (bodies : List Body) (f : Force)
    (jd : JointData) (α : ℚ) (hk : f.kind = .joint jd) :
    (forceComputeConstraints rf bodies f α).kind = .joint jd := by
  simp [forceComputeConstraints, hk, jointComputeConstraints]

theorem dualForce_manifold_bounds (rf : RealFuns) (bodies : List Body)
    (α β : ℚ) (g : Force) (hβ : 0 ≤ β) (hg : GoodF g) (hr : g.rows ≤ 4)
    (hpen : PenInv g) :
    ∀ i, 2 * i + 1 < (dualForce rf bodies α β g).rows →
      ∀ md0, g.kind = .manifold md0 →
        (dualForce rf bodies α β g).fmax (2 * i + 1) =
          .fin (|g.lam (2 * i)| * md0.friction) ∧
        0 ≤ |g.lam (2 * i)| * md0.friction ∧
        (dualForce rf bodies α β g).fmin (2 * i + 1) =
          .fin (-(|g.lam (2 * i)| * md0.friction)) ∧
        |(dualForce rf bodies α β g).lam (2 * i + 1)| ≤
          |g.lam (2 * i)| * md0.friction := by
  intro i hi md0 hk0
  obtain ⟨a1, a2, a3, a4, a5⟩ := cc_arrays rf bodies g α
  have hg1 : GoodF (forceComputeConstraints rf bodies g α) := cc_good rf bodies g α hg
  have hp1 : PenInv (forceComputeConstraints rf bodies g α) :=
    penInv_transport a2 a3 a5 hpen
  have hr1 : (forceComputeConstraints rf bodies g α).rows ≤ 4 := by rw [a5]; exact hr
  obtain ⟨bg, bp, bk, bmin, bmax, blam⟩ :=
    dualRows_inv β hβ (forceComputeConstraints rf bodies g α).rows
      (forceComputeConstraints rf bodies g α) hg1 hr1 hp1
  have hrowseq : (dualForce rf bodies α β g).rows =
      (forceComputeConstraints rf bodies g α).rows := by
    unfold dualForce
    exact rows_of_kind_eq bk
  have hrowsg : (forceComputeConstraints rf bodies g α).rows = g.rows := a5
  have hlt : 2 * i + 1 < 2 * md0.contacts.length := by
    rw [hrowseq, hrowsg] at hi
    unfold Force.rows at hi
    rw [hk0] at hi
    exact hi
  have hb := mcc_bounds bodies g md0 α (2 * i + 1) hlt (by omega)
  have hccb : (forceComputeConstraints rf bodies g α).fmax (2 * i + 1) =
      .fin (|g.lam (2 * i)| * md0.friction) ∧
      (forceComputeConstraints rf bodies g α).fmin (2 * i + 1) =
      .fin (-(|g.lam (2 * i)| * md0.friction)) := by
    have h21 : 2 * i + 1 - 1 = 2 * i := by omega
    simp only [forceComputeConstraints, hk0] at *
    rw [h21] at hb
    exact hb
  have hbnn : 0 ≤ |g.lam (2 * i)| * md0.friction :=
    mul_nonneg (abs_nonneg _) (hg.2.2 md0 hk0)
  have hmax : (dualForce rf bodies α β g).fmax (2 * i + 1) =
      .fin (|g.lam (2 * i)| * md0.friction) := by
    unfold dualForce
    rw [congrFun bmax (2 * i + 1)]
    exact hccb.1
  have hmin : (dualForce rf bodies α β g).fmin (2 * i + 1) =
      .fin (-(|g.lam (2 * i)| * md0.friction)) := by
    unfold dualForce
    rw [congrFun bmin (2 * i + 1)]
    exact hccb.2
  refine ⟨hmax, hbnn, hmin, ?_⟩
  have hmem := blam (2 * i + 1) (by rw [← hrowseq]; exact hi)
  rw [hccb.1, hccb.2] at hmem
  have : |(dualForce rf bodies α β g).lam (2 * i + 1)| ≤
      |g.lam (2 * i)| * md0.friction := memClosed_abs_le hmem
  exact this

/-- C6 (amended): when post-stabilization is off, at the end of every
non-skipped step each manifold tangential row satisfies
|lambda_t| <= fmax, with fmin = -fmax and fmax >= 0 — fmax holds
mu * |lambda_n^pre| for the normal multiplier read at the final bounds
refresh, which may differ from the final lambda_n (the cone against the
final normal multiplier can fail, see the counterexample). -/
theorem step_friction_bounds (rf : RealFuns) (dt : ℚ) (s : State)
    (hsq : SqrtNonneg rf) (hp : s.paused = false) (hu : s.urgentStop = false)
    (hβ : 0 ≤ s.beta) (hit : 1 ≤ s.iterations)
    (hwf : ∀ f ∈ s.forces, GoodF f) (hps : s.postStabilization = false) :
    ∀ f ∈ (step rf dt s).forces, ∀ md, f.kind = .manifold md →
      ∀ i, 2 * i + 1 < f.rows →
        f.fmax (2 * i + 1) = .fin (finVal (f.fmax (2 * i + 1))) ∧
        0 ≤ finVal (f.fmax (2 * i + 1)) ∧
        f.fmin (2 * i + 1) = .fin (-(finVal (f.fmax (2 * i + 1)))) ∧
        |f.lam (2 * i + 1)| ≤ finVal (f.fmax (2 * i + 1)) := by
  intro f hf md hkmd i hi
  rw [step_forces_unfold rf dt s hp hu] at hf
  have hinv0 : ∀ g ∈ (initForces rf (broadphase s)).forces, RowInvs g := by
    intro g hg
    exact initForces_inv rf (broadphase s) hsq (broadphase_good s hwf) g hg
  have hpres : ∀ (l : List ℕ) (st : LoopSt), (∀ g ∈ st.forces, RowInvs g) →
      ∀ g ∈ (l.foldl (mainIter rf s.dt s.alpha s.beta s.iterations) st).forces,
        RowInvs g := by
    intro l st h
    exact foldl_inv _ (fun st => ∀ g ∈ st.forces, RowInvs g)
      (fun a b ha => mainIter_pres rf s.dt s.alpha s.beta s.iterations a b hβ ha)
      l st h
  have hiters : (if s.postStabilization then 1 else 0) = 0 := by rw [hps]; rfl
  rw [hiters, Nat.add_zero] at hf
  obtain ⟨n, hn⟩ : ∃ n, s.iterations = n + 1 := ⟨s.iterations - 1, by omega⟩
  rw [hn] at hf hpres
  rw [foldl_range_succ] at hf
  set stn := (List.range n).foldl
    (mainIter rf s.dt s.alpha s.beta (n + 1))
    { bodies := (initForces rf (broadphase s)).bodies.map
        (warmstartBody s.gravX s.gravY s.dt)
      forces := (initForces rf (broadphase s)).forces
      trace := [] } with hstn
  have hQn : ∀ g ∈ stn.forces, RowInvs g := hpres _ _ hinv0
  rw [mainIter_forces_eq rf s.dt s.alpha s.beta (n + 1) stn n
    (by omega)] at hf
  obtain ⟨g, hg, he⟩ := List.mem_map.1 hf
  have hRg : RowInvs g :=
    primalAll_pres rf s.dt s.alpha stn.bodies stn.forces stn.bodies.length
      hQn g hg
  subst he
  -- the final force is the dual update of g; identify g's manifold payload
  cases hkg : g.kind with
  | joint jd =>
    exfalso
    set PA := (List.range stn.bodies.length).foldl
      (primalBody rf s.dt s.alpha) (stn.bodies, stn.forces) with hPA
    have hkind : (dualForce rf PA.1 s.alpha s.beta g).kind = .joint jd := by
      unfold dualForce
      obtain ⟨_, _, bk, _, _, _⟩ := dualRows_inv s.beta hβ
        (forceComputeConstraints rf PA.1 g s.alpha).rows
        (forceComputeConstraints rf PA.1 g s.alpha)
        (cc_good _ _ g s.alpha hRg.1)
        (by rw [(cc_arrays rf PA.1 g s.alpha).2.2.2.2]; exact hRg.2.2)
        (penInv_transport (cc_arrays rf PA.1 g s.alpha).2.1
          (cc_arrays rf PA.1 g s.alpha).2.2.1
          (cc_arrays rf PA.1 g s.alpha).2.2.2.2 hRg.2.1)
      rw [bk]
      exact cc_kind_joint rf PA.1 g jd s.alpha hkg
    rw [hkmd] at hkind
    cases hkind
  | manifold md0 =>
    obtain ⟨hmax, hnn, hmin, hlam⟩ := dualForce_manifold_bounds rf _ s.alpha
      s.beta g hβ hRg.1 hRg.2.2 hRg.2.1 i hi md0 hkg
    exact ⟨by rw [hmax]; rfl, by rw [hmax]; exact hnn, by rw [hmin, hmax]; rfl,
      by rw [hmax]; exact hlam⟩

/-- Witness for C6 (amended) on the sliding-contact scene, at tangential
row 1 of the surviving manifold. -/
theorem step_friction_bounds_w :
    c6res.fmax 1 = .fin (finVal (c6res.fmax 1)) ∧
    0 ≤ finVal (c6res.fmax 1) ∧
    c6res.fmin 1 = .fin (-(finVal (c6res.fmax 1))) ∧
    |c6res.lam 1| ≤ finVal (c6res.fmax 1) := by
  have hlen : 0 < ((step rfZero (1 / 60) coneState).forces).length := by decide
  have hmem : c6res ∈ (step rfZero (1 / 60) coneState).forces := by
    unfold c6res
    rw [List.getD_eq_getElem _ _ hlen]
    exact List.getElem_mem hlen
  have hwf : ∀ f ∈ coneState.forces, GoodF f := by
    intro f hf
    rcases List.mem_singleton.1 hf with rfl
    refine ⟨fun j => (newManifold_good 0 1).1 j,
      fun j => (newManifold_good 0 1).2.1 j, ?_⟩
    intro md hk
    have hk2 : FKind.manifold ⟨0, 1, [seedContact 50462720, seedContact 67305472], 0⟩
        = FKind.manifold md := hk
    cases hk2
    exact le_refl 0
  exact step_friction_bounds rfZero (1 / 60) coneState ratSqrt_nonneg rfl rfl
    (by decide) (by decide) hwf rfl c6res hmem c6md (by decide) 0 (by decide)

/-- C8: the per-iteration manifold constraint evaluation: row 2i is
(1-alpha)*C0_normal plus the precomputed Jacobians dotted with the pose
deltas, row 2i+1 the tangential analog; the tangential bounds are
refreshed to mu*|lambda[2i]| symmetric; the normal-row bounds are left
untouched by computeConstraints and are fmin = -Infinity, fmax = 0 from
the Manifold constructor. -/
theorem manifold_rows_and_bounds (bodies : List Body) (f : Force)
    (md : ManifoldData) (α : ℚ) (i aIdx bIdx : ℕ)
    (hi : i < md.contacts.length) (hi2 : i < 2) :
    (manifoldComputeConstraints bodies f md α).C (2 * i) =
      (md.contacts.getD i Contact.empty).C0.x * (1 - α)
      + Vec3.dot (md.contacts.getD i Contact.empty).jacNormA
          (Vec3.sub (getBody bodies md.bodyA).pos (getBody bodies md.bodyA).lastPos)
      + Vec3.dot (md.contacts.getD i Contact.empty).jacNormB
          (Vec3.sub (getBody bodies md.bodyB).pos (getBody bodies md.bodyB).lastPos) ∧
    (manifoldComputeConstraints bodies f md α).C (2 * i + 1) =
      (md.contacts.getD i Contact.empty).C0.y * (1 - α)
      + Vec3.dot (md.contacts.getD i Contact.empty).jacTangA
          (Vec3.sub (getBody bodies md.bodyA).pos (getBody bodies md.bodyA).lastPos)
      + Vec3.dot (md.contacts.getD i Contact.empty).jacTangB
          (Vec3.sub (getBody bodies md.bodyB).pos (getBody bodies md.bodyB).lastPos) ∧
    (manifoldComputeConstraints bodies f md α).fmax (2 * i + 1) =
      .fin (|f.lam (2 * i)| * md.friction) ∧
    (manifoldComputeConstraints bodies f md α).fmin (2 * i + 1) =
      .fin (-(|f.lam (2 * i)| * md.friction)) ∧
    (manifoldComputeConstraints bodies f md α).fmax (2 * i) = f.fmax (2 * i) ∧
    (manifoldComputeConstraints bodies f md α).fmin (2 * i) = f.fmin (2 * i) ∧
    (manifoldComputeConstraints bodies f md α).lam = f.lam ∧
    (newManifold aIdx bIdx).fmax (2 * i) = .fin 0 ∧
    (newManifold aIdx bIdx).fmin (2 * i) = .ninf := by
  have h2i : 2 * i < 2 * md.contacts.length := by omega
  have h2i1 : 2 * i + 1 < 2 * md.contacts.length := by omega
  have hdiv0 : 2 * i / 2 = i := by omega
  have hdiv1 : (2 * i + 1) / 2 = i := by omega
  have hmod0 : 2 * i % 2 = 0 := by omega
  have hmod1 : (2 * i + 1) % 2 = 1 := by omega
  have hsub : 2 * i + 1 - 1 = 2 * i := by omega
  have hb := mcc_bounds bodies f md α (2 * i + 1) h2i1 hmod1
  rw [hsub] at hb
  refine ⟨?_, ?_, hb.1, hb.2, ?_, ?_, rfl, ?_, ?_⟩
  · unfold manifoldComputeConstraints
    dsimp only
    rw [if_pos h2i, if_pos hmod0, hdiv0]
  · unfold manifoldComputeConstraints
    dsimp only
    rw [if_pos h2i1]
    rw [if_neg (by omega : ¬ (2 * i + 1) % 2 = 0), hdiv1]
  · unfold manifoldComputeConstraints
    dsimp only
    rw [if_neg (by omega : ¬ (2 * i < 2 * md.contacts.length ∧ 2 * i % 2 = 1))]
  · unfold manifoldComputeConstraints
    dsimp only
    rw [if_neg (by omega : ¬ (2 * i < 2 * md.contacts.length ∧ 2 * i % 2 = 1))]
  · unfold newManifold baseRows
    dsimp only
    rw [if_pos (by omega : 2 * i = 0 ∨ 2 * i = 2)]
  · unfold newManifold baseRows
    dsimp only
    rw [if_pos (by omega : 2 * i = 0 ∨ 2 * i = 2)]

/-- Witness for C8 on a one-contact manifold. -/
theorem manifold_rows_and_bounds_w :
    (manifoldComputeConstraints [] (newManifold 0 1)
      ⟨0, 1, [Contact.empty], 0⟩ (1 / 2)).fmax 1 =
      .fin (|(newManifold 0 1).lam 0| * (0 : ℚ)) ∧
    (newManifold 2 3).fmax 0 = .fin 0 :=
  ⟨(manifold_rows_and_bounds [] (newManifold 0 1) ⟨0, 1, [Contact.empty], 0⟩
      (1 / 2) 0 2 3 (by decide) (by decide)).2.2.1,
   (manifold_rows_and_bounds [] (newManifold 0 1) ⟨0, 1, [Contact.empty], 0⟩
      (1 / 2) 0 2 3 (by decide) (by decide)).2.2.2.2.2.2.2.1⟩

/-- C4 (amended): hard rows are filled with the INVERTED convention
C_j = C_j(q) - alpha * C0_j (for the manifold in the Taylor form
(1-alpha)*C0 + J.dq, which equals (C0 + J.dq) - alpha*C0), so alpha = 0
enforces exact position alignment and alpha > 0 leaks the fraction alpha
of the initial error. -/
theorem hard_row_stabilized_form (rf : RealFuns) (bodies : List Body) (α : ℚ) :
    (∀ (f : Force) (jd : JointData) (j : ℕ), j < 3 →
      (f.stiffness j).isPInf = true →
      (jointComputeConstraints rf bodies f jd α).C j =
        Vec3.idx (jointCn rf bodies jd) j - α * Vec3.idx jd.C0 j) ∧
    (∀ (f : Force) (md : ManifoldData) (i : ℕ), i < md.contacts.length →
      (manifoldComputeConstraints bodies f md α).C (2 * i) =
        ((md.contacts.getD i Contact.empty).C0.x
          + Vec3.dot (md.contacts.getD i Contact.empty).jacNormA
            (Vec3.sub (getBody bodies md.bodyA).pos (getBody bodies md.bodyA).lastPos)
          + Vec3.dot (md.contacts.getD i Contact.empty).jacNormB
            (Vec3.sub (getBody bodies md.bodyB).pos (getBody bodies md.bodyB).lastPos))
        - α * (md.contacts.getD i Contact.empty).C0.x) := by
  constructor
  · intro f jd j hj hstiff
    unfold jointComputeConstraints Vec3.idx
    dsimp only
    rw [if_pos hj, hstiff]
    simp only [if_true]
    ring
  · intro f md i hi
    have h2i : 2 * i < 2 * md.contacts.length := by omega
    unfold manifoldComputeConstraints
    dsimp only
    rw [if_pos h2i, if_pos (by omega : 2 * i % 2 = 0),
      (by omega : 2 * i / 2 = i)]
    ring

/-- Witness for C4 (amended) at the concrete joint. -/
theorem hard_row_stabilized_form_w :
    (jointComputeConstraints rfZero [jointBodyA] cxJoint cxJD (1 / 4)).C 0 =
      Vec3.idx (jointCn rfZero [jointBodyA] cxJD) 0 - (1 / 4) * Vec3.idx cxJD.C0 0 :=
  (hard_row_stabilized_form rfZero [jointBodyA] (1 / 4)).1 cxJoint cxJD 0
    (by decide) (by decide)

/-- C3 (amended): the inertial prediction stores
q_inertial = q + v_clamped*dt + g*dt^2 with the FULL gravity term for
bodies with nonzero mass (static bodies skip it), while the advanced
position uses the acc_weight-scaled gravity term; the rotational velocity
is clamped to [-50, 50] first (for non-static bodies; the velocity setter
is a no-op on static ones), last_q records the pre-advance pose, and
acc_weight is clamped into [0, 1]. -/
theorem warmstart_inertial_spec (gravX gravY dt : ℚ) (b : Body)
    (hb : b.consistent) :
    (b.staticBody = false →
      (warmstartBody gravX gravY dt b).vel =
        ⟨b.vel.x, b.vel.y,
          if b.vel.z > 50 then 50 else if b.vel.z < -50 then -50 else b.vel.z⟩ ∧
      -50 ≤ (warmstartBody gravX gravY dt b).vel.z ∧
      (warmstartBody gravX gravY dt b).vel.z ≤ 50 ∧
      (warmstartBody gravX gravY dt b).inertial =
        Vec3.add (Vec3.add b.pos ((warmstartBody gravX gravY dt b).vel.scale dt))
          (Vec3.scale ⟨gravX, gravY, 0⟩ (dt * dt)) ∧
      (warmstartBody gravX gravY dt b).pos =
        Vec3.add b.pos
          (Vec3.add ((warmstartBody gravX gravY dt b).vel.scale dt)
            (Vec3.scale ⟨gravX, gravY, 0⟩
              (accWeight gravY dt (warmstartBody gravX gravY dt b).vel b.prevVel
                * dt * dt)))) ∧
    (b.staticBody = true →
      (warmstartBody gravX gravY dt b).inertial =
        Vec3.add b.pos (b.vel.scale dt)) ∧
    (warmstartBody gravX gravY dt b).lastPos = b.pos ∧
    0 ≤ accWeight gravY dt b.vel b.prevVel ∧
    accWeight gravY dt b.vel b.prevVel ≤ 1 := by
  have haw : ∀ v pv, 0 ≤ accWeight gravY dt v pv ∧ accWeight gravY dt v pv ≤ 1 := by
    intro v pv
    unfold accWeight
    dsimp only
    split_ifs <;> constructor <;> linarith
  unfold Body.consistent at hb
  constructor
  · intro hstat
    have hmass : b.mass ≠ 0 := by
      rw [hstat] at hb
      intro hm
      rw [hm] at hb
      simp at hb
    unfold warmstartBody Body.setVelocity
    rw [hstat]
    simp only [Bool.false_eq_true, if_false]
    rw [if_pos hmass]
    refine ⟨trivial, ?_, ?_, rfl, trivial⟩
    · dsimp only
      split_ifs <;> linarith
    · dsimp only
      split_ifs <;> linarith
  · refine ⟨?_, ?_, (haw _ _).1, (haw _ _).2⟩
    · intro hstat
      unfold warmstartBody Body.setVelocity
      rw [hstat]
      simp only [eq_self_iff_true, if_true]
      have hmass : b.mass = 0 := by
        rw [hstat] at hb
        exact of_decide_eq_true hb.symm
      rw [if_neg (by simp [hmass])]
    · unfold warmstartBody Body.setVelocity
      split_ifs <;> rfl

/-- Witness for C3 (amended) at the resting unit-mass body. -/
theorem warmstart_inertial_spec_w :
    (warmstartBody 0 (-981 / 100) (1 / 60) jointBodyA).lastPos = jointBodyA.pos :=
  (warmstart_inertial_spec 0 (-981 / 100) (1 / 60) jointBodyA
    (by unfold Body.consistent; decide)).2.2.1

/-- C7 (amended): crossing the fracture threshold during a dual row update
does call disable() — zeroing every row's stiffness, penalty and lambda
for the rest of the step — but the force does not persist until scene
reset: a Joint whose stiffnesses are all zero reports itself unused from
initialize(), and the next step's initialization sweep removes it. -/
theorem fracture_disable_then_removed :
    (∀ (β : ℚ) (f : Force) (j : ℕ), 0 ≤ β →
      (f.fracture j).leAbs ((dualLamUpdate f j).lam j) = true →
      ∀ k < 4, (dualRowStep β f j).stiffness k = .fin 0 ∧
        (dualRowStep β f j).lam k = 0 ∧ (dualRowStep β f j).penalty k = 0) ∧
    (∀ (rf : RealFuns) (bodies : List Body) (f : Force) (jd : JointData),
      f.kind = .joint jd → f.stiffness 0 = .fin 0 → f.stiffness 1 = .fin 0 →
      f.stiffness 2 = .fin 0 → (forceInitialize rf bodies f).2 = false) ∧
    (∀ (rf : RealFuns) (s : State) (f : Force), s.forces = [f] →
      (forceInitialize rf s.bodies f).2 = false →
      (initForces rf s).forces = []) := by
  refine ⟨?_, ?_, ?_⟩
  · intro β f j hβ hfrac k hk4
    unfold dualRowStep
    have hcond : ((dualLamUpdate f j).fracture j).leAbs ((dualLamUpdate f j).lam j)
        = true := by
      rw [(lamUpd_struct f j).2.2.2.2.2.1]
      exact hfrac
    unfold dualMaybeDisable
    rw [if_pos hcond]
    set f2 := (dualLamUpdate f j).disable with hf2
    have hstiff : ∀ m, m < 4 → f2.stiffness m = .fin 0 := by
      intro m hm
      rw [hf2]
      unfold Force.disable
      dsimp only
      rw [if_pos hm]
    have hlam : ∀ m, m < 4 → f2.lam m = 0 := by
      intro m hm
      rw [hf2]
      unfold Force.disable
      dsimp only
      rw [if_pos hm]
    have hpen : ∀ m, m < 4 → f2.penalty m = 0 := by
      intro m hm
      rw [hf2]
      unfold Force.disable
      dsimp only
      rw [if_pos hm]
    obtain ⟨_, _, _, _, _, g6, g7⟩ := maybeGrow_struct β f2 j
    refine ⟨by rw [congrFun g7 k]; exact hstiff k hk4,
      by rw [congrFun g6 k]; exact hlam k hk4, ?_⟩
    unfold dualMaybeGrow
    dsimp only
    split_ifs with hgrow
    · simp only [upd]
      by_cases hkj : k = j
      · subst hkj
        simp only [if_pos rfl]
        by_cases hk4' : k < 4
        · rw [hpen k hk4', hstiff k hk4']
          have : Ext.minQ (Ext.fin 0) PENALTY_MAX = 0 := by
            unfold Ext.minQ
            exact min_eq_right zero_le_PMAX |>.symm ▸ (min_eq_right zero_le_PMAX)
          rw [this]
          have hnn : 0 ≤ β * |f2.C k| := mul_nonneg hβ (abs_nonneg _)
          rw [zero_add]
          exact min_eq_right hnn |>.symm ▸ (min_eq_right hnn)
        · omega
      · simp only [if_neg hkj]
        exact hpen k hk4
    · exact hpen k hk4
  · intro rf bodies f jd hk h0 h1 h2
    simp only [forceInitialize, hk, jointInitialize, h0, h1, h2]
    decide
  · intro rf s f hfs hinit
    unfold initForces
    rw [hfs]
    simp only [List.foldl_cons, List.foldl_nil, hinit]
    rfl

/-- Witness for C7 (amended): the already-fractured joint reports itself
unused at initialize. -/
theorem fracture_disable_then_removed_w :
    (forceInitialize rfZero [] fracturedJoint).2 = false :=
  fracture_disable_then_removed.2.1 rfZero [] fracturedJoint
    ⟨⟨0, 0⟩, ⟨0, 0⟩, ⟨0, 0, 0⟩, 100, 0, some 0, 1⟩
    (by decide) (by decide) (by decide) (by decide)

/-- Witness for C10 at concrete lists. -/
theorem registration_idempotent_w :
    (2 ∈ [1, 2] ∧ addRigidBox [1, 2] 2 = [1, 2]) ∧
    (3 ∈ [3] ∧ addForce [3] 3 = [3]) ∧
    (([4] : List ℕ).Nodup ∧ (addEnergy [4] 5).Nodup) :=
  ⟨⟨by decide, (registration_idempotent [1, 2] [3] [4] 2 3 5).1 (by decide)⟩,
   ⟨by decide, (registration_idempotent [1, 2] [3] [4] 2 3 5).2.1 (by decide)⟩,
   ⟨by decide, (registration_idempotent [1, 2] [3] [4] 2 3 5).2.2.2.2.2 (by decide)⟩⟩

end AVBD
